import Mathlib

/-!
Verification of the appointment-booking core of the Midecae repository
(slot allocation, booking-number and queue-number generation).

The embedding translates the JavaScript source into pure Lean functions:

* `models/Appointment.js` becomes the `Appt` structure together with the
  unique indexes that actually build on the storage layer: the partial
  queue index (`queueKeyed`/`sameQueueKey`) and the sparse unique index on
  `bookingNumber`.  The declared slot index (lines 141-152) puts `$ne: ""`
  inside its `partialFilterExpression`, which MongoDB rejects
  (`unsupported expression in partial index`), so that index never builds
  and is deliberately absent from the embedding — the repository's own
  `scripts/fix-appointment-index.js` ("MongoDB partial index without
  $ne") recreates the sibling queue index without `$ne` for exactly this
  reason, leaving the slot index broken;
* the MongoDB store becomes the `Store` structure (a list of appointment
  documents plus a keyed counter table); every storage write goes through
  `insertAppt` / `saveAppt`, which enforce the built unique indexes
  exactly as the MongoDB storage layer does (failure is the duplicate-key
  error E11000);
* `routes/appointments.js` and the doctor router (src/unnamed/part_008)
  become `createBooking`, `cancelBooking`, `acceptPendingBooking`,
  `ensureBookingNumber`, `renumberAllAppointments` and
  `ensureDoctorQueueBackfill`.

Concurrency model: every MongoDB command (`findOne`, `findOneAndUpdate`,
`create`, `save`) is a single atomic step; a concurrent execution is an
arbitrary interleaving of these atomic steps, so a schedule of complete
one-step operations is just a sequence, and races inside a multi-step
operation are modelled by running another operation's steps between its
check and its insert.

External collaborators (QR rendering, push notifications, HTTP plumbing,
authentication) are out of scope per the spec and are not modelled; they
never write the fields the claims are about.
-/

namespace Midecae

/-- Appointment status (`models/Appointment.js`, `status` enum). -/
inductive Status where
  | pending
  | confirmed
  | completed
  | cancelled
deriving DecidableEq, Repr

/-- Appointment document (`models/Appointment.js`).  Object ids are
modelled as `Nat`.  `appointmentDateIso`, `appointmentTimeValue` have no
schema default, so a document may lack them (`none`); `doctorProfile`
defaults to `null`, so the field is always present (hence the partial
index condition `doctorProfile: {$exists: true}` always holds) and only
its value (`none` = null) varies.  `doctorQueueNumber` is counter-derived,
modelled as `Option Nat` (`none` = null).  `createdAt` is the mongoose
timestamp, modelled as a logical clock value. -/
structure Appt where
  id : Nat
  user : Nat
  doctorName : String
  doctorRole : String
  specialty : String
  specialtySlug : String
  doctorProfile : Option Nat
  appointmentDate : String
  appointmentDateIso : Option String
  appointmentTime : String
  appointmentTimeValue : Option String
  status : Status
  notes : String
  doctorNote : String
  createdByDoctor : Bool
  bookingNumber : String
  doctorQueueNumber : Option Nat
  qrCode : String
  qrPayload : String
  createdAt : Nat
deriving DecidableEq, Repr

/-- Doctor profile (`models/DoctorProfile.js`), restricted to the fields
the booking core reads.  Subscription instants are modelled as integers
on the store's logical clock. -/
structure DoctorProfileRec where
  id : Nat
  user : Nat
  displayName : String
  specialtySlug : String
  subscriptionEndsAt : Option Int
  subscriptionGraceEndsAt : Option Int
deriving DecidableEq, Repr

/-- Block record (`models/Block.js`): a doctor (user id) blocking a
patient. -/
structure BlockRec where
  doctor : Nat
  patient : Nat
  blockBooking : Bool
deriving DecidableEq, Repr

/-- Modelled from the spec: the keyed counter collection.  The repository
requires `models/Counter.js` (absent from src/; only its callers are
present); per the spec (§3 Sequence Counter, §6 persistent store
interface) it is a named integer counter `(key, seq)` supporting the
store's atomic find-and-increment.  Counters are held as an association
list; `seq` is a natural number, created at 0 on first use. -/
structure Store where
  appts : List Appt
  counters : List (String × Nat)
  doctorProfiles : List DoctorProfileRec
  blocks : List BlockRec
  now : Int
  nextId : Nat
deriving DecidableEq, Repr

/-! ### JavaScript string primitives

The routes use `String(n)`, `Number(s)`, `.trim()` and the digit regex
`/^[0-9]+$/`.  They are embedded at the character-list level. -/

/-- JavaScript whitespace class (`\s`), restricted to the characters that
occur in this system's data. -/
def jsWs (c : Char) : Bool :=
  c = ' ' || c = '\t' || c = '\n' || c = '\r'

/-- Character-list trim: drop whitespace from both ends. -/
def trimChars (cs : List Char) : List Char :=
  ((cs.dropWhile jsWs).reverse.dropWhile jsWs).reverse

/-- Embedding of JavaScript `String.prototype.trim`. -/
def jsTrim (s : String) : String :=
  ⟨trimChars s.data⟩

/-- Embedding of `isNumericBooking` (routes/appointments.js line 46):
`typeof value === "string" && /^[0-9]+$/.test(value.trim())`. -/
def isNumericBooking (v : String) : Bool :=
  !(jsTrim v).data.isEmpty && (jsTrim v).data.all (·.isDigit)

/-- Decimal value of a digit-character list, most significant first. -/
def digitsVal (cs : List Char) : Nat :=
  cs.foldl (fun a c => 10 * a + (c.toNat - 48)) 0

/-- Embedding of JavaScript `Number(s)` on the string forms this system
produces: whitespace-only coerces to 0, a (trimmed) digit string to its
value, and anything else to NaN (`none`).  Signed, fractional and
exponent numerals never occur in booking numbers and are mapped to
`none`. -/
def jsNumber (s : String) : Option Nat :=
  let t := (jsTrim s).data
  if t.isEmpty then some 0
  else if t.all (·.isDigit) then some (digitsVal t) else none

/-- Embedding of `ensureDoctorPrefix` (routes/appointments.js line 16):
normalise a doctor display name to carry the Arabic prefix.  The regex
`/^د\s*\.?\s*/` strips a leading Arabic dal, optional whitespace, an
optional dot and optional whitespace; the prefixed form is then
rebuilt. -/
def ensureDoctorPrefixed (rawName : String) : String :=
  let name := jsTrim rawName
  if name = ("") then name
  else
    let stripped :=
      match name.data with
      | 'د' :: rest =>
          let r1 := rest.dropWhile jsWs
          let r2 := match r1 with
            | '.' :: r => r
            | _ => r1
          jsTrim ⟨r2.dropWhile jsWs⟩
      | _ => name
    ("د. ") ++ stripped

/-! ### Counter store (Sequence Allocator)

`getNextBookingNumber` / `getNextDoctorQueueNumber` call
`Counter.findOneAndUpdate({key}, {$inc: {seq: 1}}, {new: true, upsert:
true, setDefaultsOnInsert: true})`.  Modelled from the spec: this MongoDB
command is the atomic find-and-increment the persistent store offers
(§6); it is one atomic step, never a read followed by a write.  On a
missing key the upsert creates the counter and `$inc` starts it from 0,
so the first returned value is 1. -/

/-- Current value of a counter, if the key exists. -/
def counterLookup (cs : List (String × Nat)) (k : String) : Option Nat :=
  (cs.find? (·.1 = k)).map (·.2)

/-- Atomic `findOneAndUpdate` with `$inc: {seq: 1}` and upsert: returns
the new value and the updated table. -/
def counterIncr (cs : List (String × Nat)) (k : String) :
    Nat × List (String × Nat) :=
  match counterLookup cs k with
  | some v => (v + 1, cs.map fun p => if p.1 = k then (k, v + 1) else p)
  | none => (1, cs ++ [(k, 1)])

/-- `findOneAndUpdate` with `$set: {seq: v}` and upsert (counter
resynchronisation). -/
def counterSetSeq (cs : List (String × Nat)) (k : String) (v : Nat) :
    List (String × Nat) :=
  match counterLookup cs k with
  | some _ => cs.map fun p => if p.1 = k then (k, v) else p
  | none => cs ++ [(k, v)]

/-- Store-level atomic increment of the counter `k`. -/
def storeIncr (s : Store) (k : String) : Nat × Store :=
  let (v, cs) := counterIncr s.counters k
  (v, { s with counters := cs })

/-- `getNextBookingNumber` (routes/appointments.js line 26): increment
the global `bookingNumber` counter and return `String(counter.seq)`. -/
def getNextBookingNumber (s : Store) : String × Store :=
  let (v, s') := storeIncr s ("bookingNumber")
  (toString v, s')

/-- Counter key for the per-doctor queue (`doctorQueueNumber:{id}`),
used by `getNextDoctorQueueNumber` and by the backfill resync. -/
def doctorQueueKey (doctorProfileId : Nat) : String :=
  ("doctorQueueNumber:") ++ toString doctorProfileId

/-- Counter key for the per-doctor per-day queue
(`doctorQueueNumber:{id}:{dateIso}`), used by `router.post("/")`. -/
def doctorQueueDayKey (doctorProfileId : Nat) (dateIso : String) : String :=
  doctorQueueKey doctorProfileId ++ (":") ++ dateIso

/-- `getNextDoctorQueueNumber` (src/unnamed/part_008 line 95): `null`
without a doctor profile id, else increment the doctor-scoped counter
and return `Number(counter.seq)`. -/
def getNextDoctorQueueNumber (s : Store) (doctorProfileId : Option Nat) :
    Option Nat × Store :=
  match doctorProfileId with
  | none => (none, s)
  | some did =>
      let (v, s') := storeIncr s (doctorQueueKey did)
      (some v, s')

/-- Results of `n` successive (equivalently, `n` concurrently scheduled:
each call is one atomic step, so every interleaving is a sequence)
`$inc` calls on counter `k`, together with the final store. -/
def nextValues (s : Store) (k : String) : Nat → List Nat × Store
  | 0 => ([], s)
  | n + 1 =>
      let (v, s') := storeIncr s k
      let (vs, s'') := nextValues s' k n
      (v :: vs, s'')

/-! ### Storage layer: unique indexes, insert and save

`models/Appointment.js` declares three unique indexes, of which only two
ever build:
* the slot index (lines 141-152) — `(doctorProfile, appointmentDateIso,
  appointmentTimeValue)` unique, partial — puts `$ne: ""` inside its
  `partialFilterExpression`; MongoDB does not support `$ne` in partial
  index filters, `createIndex` fails with `unsupported expression in
  partial index`, and the index NEVER builds.  The repository's own
  `scripts/fix-appointment-index.js` ("fix the index … MongoDB partial
  index without $ne") recreates the sibling queue index with `$ne`
  removed for exactly this reason, while the slot declaration stays
  broken.  The storage layer therefore enforces no slot uniqueness, and
  the embedding carries no slot constraint;
* queue index (lines 154-164): `(doctorProfile, appointmentDateIso,
  doctorQueueNumber)` unique, partial on `appointmentDateIso` a string and
  `doctorQueueNumber` a number — only `$exists`/`$type`, valid, builds;
* `bookingNumber` unique sparse (lines 73-80); the schema default `""`
  keeps the field present on every document.

MongoDB also enforces the implicit unique `_id` index.  An insert or an
update that would violate a built index fails with the duplicate-key
error E11000. -/

/-- Database error: the duplicate-key error (`err.code === 11000`). -/
inductive DbErr where
  | dupKey
deriving DecidableEq, Repr

/-- Whether a document participates in the partial queue-uniqueness
index. -/
def queueKeyed (a : Appt) : Bool :=
  a.appointmentDateIso.isSome && a.doctorQueueNumber.isSome

/-- Equality of queue-index keys. -/
def sameQueueKey (a b : Appt) : Bool :=
  a.doctorProfile = b.doctorProfile &&
  a.appointmentDateIso = b.appointmentDateIso &&
  a.doctorQueueNumber = b.doctorQueueNumber

/-- Two documents collide on a value-level unique index that actually
builds: the sparse unique `bookingNumber` index or the partial queue
index.  The declared slot index never builds (its filter uses `$ne`,
rejected by MongoDB), so slot collisions are *not* duplicate keys. -/
def dupKey (a b : Appt) : Bool :=
  (a.bookingNumber = b.bookingNumber) ||
  (queueKeyed a && queueKeyed b && sameQueueKey a b)

/-- Atomic insert (`Appointment.create`): fails with E11000 when the new
document collides with an existing one on `_id` or on a unique index,
else appends it. -/
def insertAppt (s : Store) (a : Appt) : Except DbErr Store :=
  if s.appts.any (fun b => b.id = a.id || dupKey a b) then .error .dupKey
  else .ok { s with appts := s.appts ++ [a] }

/-- Atomic save of a fetched document (`doc.save()`): fails with E11000
when the new version collides with a *different* document on a unique
index, else replaces the stored version (matched by `_id`). -/
def saveAppt (s : Store) (a : Appt) : Except DbErr Store :=
  if s.appts.any (fun b => !(b.id = a.id) && dupKey a b) then .error .dupKey
  else .ok { s with appts := s.appts.map fun b => if b.id = a.id then a else b }

/-- Fetch a document by `_id`. -/
def findAppt (s : Store) (i : Nat) : Option Appt :=
  s.appts.find? (·.id = i)

/-- The doctor's appointment documents
(`Appointment.find({doctorProfile})`), in store order. -/
def doctorAppts (s : Store) (d : Nat) : List Appt :=
  s.appts.filter (·.doctorProfile = some d)

/-- One step of the stable sort: place `a` before the first stored
document with a strictly later creation time. -/
def insertByCreated (a : Appt) : List Appt → List Appt
  | [] => [a]
  | b :: t =>
      if a.createdAt ≤ b.createdAt then a :: b :: t
      else b :: insertByCreated a t

/-- Sort by creation time ascending (`.sort({createdAt: 1})`): a stable
insertion sort. -/
def sortByCreated : List Appt → List Appt
  | [] => []
  | a :: t => insertByCreated a (sortByCreated t)

/-! ### Booking Number Manager -/

/-- `ensureBookingNumber` (routes/appointments.js line 49): if the
document has no valid numeric-string booking number, pull the next global
number; then save, swallowing save errors (`try/catch`).  Returns the
in-memory document and the updated store. -/
def ensureBookingNumber (s : Store) (a : Appt) : Appt × Store :=
  let (a', s') :=
    if isNumericBooking a.bookingNumber then (a, s)
    else
      let (n, s₁) := getNextBookingNumber s
      ({ a with bookingNumber := n }, s₁)
  match saveAppt s' a' with
  | .ok s'' => (a', s'')
  | .error _ => (a', s')

/-- `releaseBookingNumber` (routes/appointments.js line 213): keep the
booking number, clear only the QR cache fields; the save error is
swallowed. -/
def releaseBookingNumber (s : Store) (a : Appt) : Appt × Store :=
  let a' := { a with qrCode := (""), qrPayload := ("") }
  match saveAppt s a' with
  | .ok s'' => (a', s'')
  | .error _ => (a', s)

/-- The walk of `renumberAllAppointments` (routes/appointments.js line
65): over the creation-ordered documents, bump `seq` and overwrite the
booking number with `String(seq)` unless
`appt.bookingNumber && Number(appt.bookingNumber) === seq`; each save is
awaited un-caught, so a duplicate-key failure aborts the walk. -/
def renumberBookingLoop (l : List Appt) (seq : Nat) (s : Store) :
    Except DbErr (Nat × Store) :=
  match l with
  | [] => .ok (seq, s)
  | a :: rest =>
      let seq' := seq + 1
      if a.bookingNumber = ("") || !(jsNumber a.bookingNumber = some seq') then
        match saveAppt s { a with bookingNumber := toString seq' } with
        | .ok s' => renumberBookingLoop rest seq' s'
        | .error e => .error e
      else renumberBookingLoop rest seq' s

/-- `renumberAllAppointments`: walk every appointment ordered by creation
time ascending, renumber, then resync the global counter to the final
`seq` and return it. -/
def renumberAllAppointments (s : Store) : Except DbErr (Nat × Store) :=
  match renumberBookingLoop (sortByCreated s.appts) 0 s with
  | .ok (seq, s') =>
      .ok (seq, { s' with counters := counterSetSeq s'.counters ("bookingNumber") seq })
  | .error e => .error e

/-! ### Doctor Queue Manager -/

/-- Count of the doctor's documents carrying a numeric queue number
(`countDocuments({doctorProfile, doctorQueueNumber: {$type: "number"}})`). -/
def assignedQueueCount (s : Store) (d : Nat) : Nat :=
  (doctorAppts s d).countP (·.doctorQueueNumber.isSome)

/-- The assigned queue numbers of the doctor's documents (the aggregate's
`$match` set). -/
def queueNums (s : Store) (d : Nat) : List Nat :=
  (doctorAppts s d).filterMap (·.doctorQueueNumber)

/-- `Number(maxRow?.[0]?.max ?? 0)`: the aggregate over an empty group
produces no row, read back as 0. -/
def queueMax (s : Store) (d : Nat) : Nat :=
  (queueNums s d).foldr max 0

/-- `Number(maxRow?.[0]?.min ?? 0)`. -/
def queueMin (s : Store) (d : Nat) : Nat :=
  match (queueNums s d).min? with
  | some m => m
  | none => 0

/-- The drift heuristic of `ensureDoctorQueueBackfill` (src/unnamed/
part_008 line 125): `assigned !== total || max !== total || min !== 1`. -/
def queueDrift (s : Store) (d : Nat) : Bool :=
  !(assignedQueueCount s d = (doctorAppts s d).length) ||
  !(queueMax s d = (doctorAppts s d).length) ||
  !(queueMin s d = 1)

/-- The renumber walk of `ensureDoctorQueueBackfill`: over the
creation-ordered documents of the doctor, bump `seq`; when the stored
queue number differs, assign it and clear the QR cache, saving
un-caught. -/
def renumberQueueLoop (l : List Appt) (seq : Nat) (s : Store) :
    Except DbErr (Nat × Store) :=
  match l with
  | [] => .ok (seq, s)
  | a :: rest =>
      let seq' := seq + 1
      if a.doctorQueueNumber = some seq' then renumberQueueLoop rest seq' s
      else
        match saveAppt s { a with doctorQueueNumber := some seq',
                                  qrCode := (""), qrPayload := ("") } with
        | .ok s' => renumberQueueLoop rest seq' s'
        | .error e => .error e

/-- `ensureDoctorQueueBackfill` (src/unnamed/part_008 line 106): no-op on
an empty doctor; otherwise compare counts and min/max to detect drift;
when drift is detected, renumber the doctor's documents densely in
creation order and resync the doctor-scoped counter to the new
maximum. -/
def ensureDoctorQueueBackfill (s : Store) (d : Nat) : Except DbErr Store :=
  if (doctorAppts s d).length = 0 then .ok s
  else if !(queueDrift s d) then .ok s
  else
    match renumberQueueLoop (sortByCreated (doctorAppts s d)) 0 s with
    | .ok (seq, s') =>
        .ok { s' with counters := counterSetSeq s'.counters (doctorQueueKey d) seq }
    | .error e => .error e

/-! ### Booking intake (`router.post("/")`, routes/appointments.js line 232) -/

/-- The booking request body (plus the authenticated user).  The service
selection (`serviceId`) is not modelled: it only resolves a price/duration
snapshot stored on the appointment and plays no part in slot, number or
queue logic. -/
structure BookingReq where
  user : Nat
  doctorName : String
  doctorRole : String
  specialty : String
  specialtySlug : String
  appointmentDate : String
  appointmentTime : String
  notes : String
  doctorId : Option Nat
  appointmentDateIso : Option String
  appointmentTimeValue : Option String
deriving DecidableEq, Repr

/-- Outcome of `router.post("/")`, one constructor per return site. -/
inductive BookingOutcome where
  /-- Status 400: `All appointment fields are required`. -/
  | missingFields
  /-- Status 404: `Doctor not found`. -/
  | doctorNotFound
  /-- Status 403: the doctor blocked this patient. -/
  | blockedByDoctor
  /-- Status 403: no active subscription (covers both subscription messages). -/
  | subscriptionInactive
  /-- Status 400: a valid date and time from the doctor's schedule is required. -/
  | invalidSchedule
  /-- Status 409 from the application pre-check: the slot is already booked. -/
  | conflictPre
  /-- Status 409: the patient already has a booking with this doctor this day. -/
  | duplicateDaily
  /-- Status 201: the appointment was created. -/
  | created (a : Appt)
  /-- Status 409 from the `err.code === 11000` handler (line 456): the
  storage-level duplicate-key error, surfaced with the same
  already-booked message as `conflictPre`. -/
  | conflictDup
deriving DecidableEq, Repr

/-- The required-fields guard (line 248): all six display fields must be
truthy. -/
def requiredPresent (r : BookingReq) : Bool :=
  !(r.doctorName = ("")) && !(r.doctorRole = ("")) &&
  !(r.specialty = ("")) && !(r.specialtySlug = ("")) &&
  !(r.appointmentDate = ("")) && !(r.appointmentTime = (""))

/-- `normalizedDateIso` (line 296): the canonical ISO date when sent as a
non-empty string, else the display date. -/
def normDateIso (r : BookingReq) : String :=
  match r.appointmentDateIso with
  | some v => if v = ("") then r.appointmentDate else v
  | none => r.appointmentDate

/-- `normalizedTimeValue` (line 300). -/
def normTimeValue (r : BookingReq) : String :=
  match r.appointmentTimeValue with
  | some v => if v = ("") then r.appointmentTime else v
  | none => r.appointmentTime

/-- `DoctorProfile.findById`. -/
def findDoctor (s : Store) (did : Nat) : Option DoctorProfileRec :=
  s.doctorProfiles.find? (·.id = did)

/-- `DoctorProfile.findOne({user})`. -/
def findProfileByUser (s : Store) (u : Nat) : Option DoctorProfileRec :=
  s.doctorProfiles.find? (·.user = u)

/-- The block guard (line 307): `block?.blockBooking`. -/
def blockForbids (s : Store) (doctorUserId patientId : Nat) : Bool :=
  match s.blocks.find? (fun b => b.doctor = doctorUserId && b.patient = patientId) with
  | some b => b.blockBooking
  | none => false

/-- The subscription guard (lines 318-336): no `subscriptionEndsAt`
forbids booking; an expired one forbids unless still inside the grace
period. -/
def subscriptionBlocked (s : Store) (p : DoctorProfileRec) : Bool :=
  match p.subscriptionEndsAt with
  | none => true
  | some e =>
      if e < s.now then
        match p.subscriptionGraceEndsAt with
        | none => true
        | some g => g < s.now
      else false

/-- The application-level slot pre-check (`Appointment.findOne` with the
conflict filter, line 353).  The source re-compares the found document's
fields (lines 359-363), which is redundant: the filter already pinned
them. -/
def slotTaken (s : Store) (d : Nat) (dateIso timeVal : String) : Bool :=
  s.appts.any fun a =>
    a.doctorProfile = some d &&
    (a.status = .pending || a.status = .confirmed) &&
    a.appointmentDateIso = some dateIso &&
    a.appointmentTimeValue = some timeVal

/-- The duplicate-daily pre-check (`userHasAppointment`, line 381): an
appointment of this user, with this doctor profile value (possibly null),
on this canonical date, in status pending or confirmed. -/
def userHasAppointment (s : Store) (u : Nat) (dp : Option Nat)
    (dateIso : String) : Bool :=
  s.appts.any fun a =>
    a.user = u && a.doctorProfile = dp &&
    a.appointmentDateIso = some dateIso &&
    (a.status = .pending || a.status = .confirmed)

/-- The document handed to `Appointment.create` (line 405): status is the
schema default `pending`; the fresh `_id` and the `createdAt` timestamp
come off the store's logical clock. -/
def mkNewAppt (s : Store) (r : BookingReq) (dp : Option Nat)
    (dIso tVal : String) (bn : String) (qn : Option Nat) : Appt :=
  { id := s.nextId
    user := r.user
    doctorName := ensureDoctorPrefixed r.doctorName
    doctorRole := r.doctorRole
    specialty := r.specialty
    specialtySlug := r.specialtySlug
    doctorProfile := dp
    appointmentDate := r.appointmentDate
    appointmentDateIso := some dIso
    appointmentTime := r.appointmentTime
    appointmentTimeValue := some tVal
    status := .pending
    notes := r.notes
    doctorNote := ("")
    createdByDoctor := false
    bookingNumber := bn
    doctorQueueNumber := qn
    qrCode := ("")
    qrPayload := ("")
    createdAt := s.nextId }

/-- The create-and-insert tail of `router.post("/")`: pull the global
booking number, insert, and translate a duplicate-key failure into the
already-booked conflict (the counters stay bumped either way — the
allocator never rewinds).  On success the route runs
`ensureQrForAppointment`; QR rendering is external, but its embedded
`ensureBookingNumber` call is kept. -/
def createCore (s : Store) (r : BookingReq) (dp : Option Nat)
    (dIso tVal : String) (qn : Option Nat) : BookingOutcome × Store :=
  let (bn, s₁) := getNextBookingNumber s
  let a := mkNewAppt s₁ r dp dIso tVal bn qn
  let s₂ := { s₁ with nextId := s₁.nextId + 1 }
  match insertAppt s₂ a with
  | .ok s₃ =>
      let (_, s₄) := ensureBookingNumber s₃ a
      (.created a, s₄)
  | .error _ => (.conflictDup, s₂)

/-- `router.post("/")` (routes/appointments.js line 232): the booking
intake.  The doctor-linked path checks the block, the subscription, the
schedule fields, the slot pre-check and the duplicate-daily pre-check,
pulls the per-doctor per-day queue counter, and creates; the
specialty-queue path (no doctor id) only checks duplicate-daily and
creates with a null doctor profile and queue number. -/
def createBooking (s : Store) (r : BookingReq) : BookingOutcome × Store :=
  if !(requiredPresent r) then (.missingFields, s)
  else
    match r.doctorId with
    | some did =>
        match findDoctor s did with
        | none => (.doctorNotFound, s)
        | some prof =>
            let dIso := normDateIso r
            let tVal := normTimeValue r
            if blockForbids s prof.user r.user then (.blockedByDoctor, s)
            else if subscriptionBlocked s prof then (.subscriptionInactive, s)
            else if dIso = ("") || tVal = ("") then (.invalidSchedule, s)
            else if slotTaken s prof.id dIso tVal then (.conflictPre, s)
            else if userHasAppointment s r.user (some prof.id) dIso then
              (.duplicateDaily, s)
            else
              let (qn, s₁) := storeIncr s (doctorQueueDayKey prof.id dIso)
              createCore s₁ r (some prof.id) dIso tVal (some qn)
    | none =>
        let dIso := normDateIso r
        if userHasAppointment s r.user none dIso then (.duplicateDaily, s)
        else createCore s r none dIso (normTimeValue r) none

/-! ### Cancellation (`router.patch("/:id/cancel")`, routes/appointments.js
line 585) -/

/-- Outcome of the patient cancel route. -/
inductive CancelOutcome where
  /-- Status 404: `Appointment not found`. -/
  | notFound
  /-- Status 403: `Not authorized`. -/
  | notAuthorized
  /-- Status 500: the status save threw. -/
  | serverError
  /-- Status 200: the cancelled appointment is returned. -/
  | done (a : Appt)
deriving DecidableEq, Repr

/-- `router.patch("/:id/cancel")`: fetch, authorise, set status to
`cancelled` and save, then `releaseBookingNumber` (clear only the QR
cache; the booking and queue numbers are kept and no counter moves).  The
push notification to the doctor is external. -/
def cancelBooking (s : Store) (userId apptId : Nat) : CancelOutcome × Store :=
  match findAppt s apptId with
  | none => (.notFound, s)
  | some a =>
      if !(a.user = userId) then (.notAuthorized, s)
      else
        let a₁ := { a with status := .cancelled }
        match saveAppt s a₁ with
        | .error _ => (.serverError, s)
        | .ok s₁ =>
            let (a₂, s₂) := releaseBookingNumber s₁ a₁
            (.done a₂, s₂)

/-! ### Accepting a pending booking
(`router.patch("/appointments/:id/accept")`, src/unnamed/part_008 line
518) -/

/-- Outcome of the doctor accept route. -/
inductive AcceptOutcome where
  /-- Status 404: `Doctor profile not found`. -/
  | profileNotFound
  /-- Status 404: not found, not pending, or not in the doctor's specialty. -/
  | notFound
  /-- Status 409: `Appointment already assigned` to another doctor. -/
  | alreadyAssigned
  /-- Status 409: the slot is already taken for this doctor (`SlotConflict`). -/
  | slotConflict
  /-- Status 500: the confirming save threw. -/
  | serverError
  /-- Status 200: the confirmed appointment. -/
  | accepted (a : Appt)
deriving DecidableEq, Repr

/-- The accept-time slot re-check (line 546): another appointment of this
doctor, pending or confirmed, on the same canonical date and time. -/
def acceptConflict (s : Store) (did : Nat) (a : Appt) : Bool :=
  s.appts.any fun b =>
    !(b.id = a.id) &&
    b.doctorProfile = some did &&
    (b.status = .pending || b.status = .confirmed) &&
    b.appointmentDateIso = a.appointmentDateIso &&
    b.appointmentTimeValue = a.appointmentTimeValue

/-- JS truthiness of the canonical slot fields (line 545):
`appointment.appointmentDateIso && appointment.appointmentTimeValue`. -/
def hasCanonicalSlot (a : Appt) : Bool :=
  (match a.appointmentDateIso with
   | some d => !(d = (""))
   | none => false) &&
  (match a.appointmentTimeValue with
   | some t => !(t = (""))
   | none => false)

/-- `router.patch("/appointments/:id/accept")`: fetch the pending
appointment in the doctor's specialty, refuse one assigned to another
doctor, re-validate the slot, then confirm, bind the doctor profile, save
and ensure the booking number.  The trailing `ensureQrForAppointment`
(QR rendering plus another, now no-op, `ensureBookingNumber`) is
external and omitted; its save failures are swallowed by the source. -/
def acceptPendingBooking (s : Store) (doctorUserId apptId : Nat) :
    AcceptOutcome × Store :=
  match findProfileByUser s doctorUserId with
  | none => (.profileNotFound, s)
  | some prof =>
      match s.appts.find? (fun a =>
          a.id = apptId && a.status = .pending &&
          a.specialtySlug = prof.specialtySlug) with
      | none => (.notFound, s)
      | some a =>
          if (match a.doctorProfile with
              | some p => !(p = prof.id)
              | none => false) then (.alreadyAssigned, s)
          else if hasCanonicalSlot a && acceptConflict s prof.id a then
            (.slotConflict, s)
          else
            let a₁ := { a with status := .confirmed, doctorProfile := some prof.id }
            match saveAppt s a₁ with
            | .error _ => (.serverError, s)
            | .ok s₁ =>
                let (a₂, s₂) := ensureBookingNumber s₁ a₁
                (.accepted a₂, s₂)

/-! ### Store invariants and observations -/

/-- Index consistency of the appointment collection: document ids are
distinct and no two documents collide on a unique index.  This is what
the MongoDB index set enforces on every reachable collection state. -/
def apptsValid (l : List Appt) : Prop :=
  (l.map (·.id)).Nodup ∧ l.Pairwise fun a b => dupKey a b = false

/-- Index consistency of the store. -/
def storeValid (s : Store) : Prop :=
  apptsValid s.appts

instance (l : List Appt) : Decidable (apptsValid l) := by
  unfold apptsValid
  infer_instance

instance (s : Store) : Decidable (storeValid s) := by
  unfold storeValid
  infer_instance

/-- Number of appointments of doctor `d` at the canonical slot `(t, h)`
in status pending or confirmed. -/
def slotCount (s : Store) (d : Nat) (t h : String) : Nat :=
  s.appts.countP fun a =>
    a.doctorProfile = some d &&
    a.appointmentDateIso = some t &&
    a.appointmentTimeValue = some h &&
    (a.status = .pending || a.status = .confirmed)

/-- The stored queue number of the document with id `i`. -/
def queueNumAt (s : Store) (i : Nat) : Option Nat :=
  (findAppt s i).bind (·.doctorQueueNumber)

/-- The stored booking number of the document with id `i`. -/
def bookingNumAt (s : Store) (i : Nat) : Option String :=
  (findAppt s i).map (·.bookingNumber)

/-- Whether a booking outcome is the 201 created case. -/
def BookingOutcome.isCreated : BookingOutcome → Bool
  | .created _ => true
  | _ => false

/-! ### Concrete instances

Small stores used to evaluate the operations at concrete inputs. -/

/-- A template appointment document. -/
def baseAppt : Appt :=
  { id := 0
    user := 0
    doctorName := ("د. أحمد")
    doctorRole := ("طبيب")
    specialty := ("جلدية")
    specialtySlug := ("derm")
    doctorProfile := none
    appointmentDate := ("2025-06-01")
    appointmentDateIso := some ("2025-06-01")
    appointmentTime := ("09:00")
    appointmentTimeValue := some ("09:00")
    status := .pending
    notes := ("")
    doctorNote := ("")
    createdByDoctor := false
    bookingNumber := ("")
    doctorQueueNumber := none
    qrCode := ("")
    qrPayload := ("")
    createdAt := 0 }

/-- A doctor profile with an active subscription. -/
def baseProfile : DoctorProfileRec :=
  { id := 1
    user := 10
    displayName := ("د. أحمد")
    specialtySlug := ("derm")
    subscriptionEndsAt := some 100
    subscriptionGraceEndsAt := none }

/-- The empty store. -/
def emptyStore : Store :=
  { appts := []
    counters := []
    doctorProfiles := []
    blocks := []
    now := 0
    nextId := 1 }

/-- Store refuting C7 as stated: patient 20 already holds a *completed*
(hence non-cancelled) appointment with doctor 1 on 2025-06-01. -/
def dupDailyStore : Store :=
  { emptyStore with
    appts := [{ baseAppt with
                  id := 1, user := 20, doctorProfile := some 1,
                  status := .completed, bookingNumber := ("1"),
                  doctorQueueNumber := some 1, createdAt := 1 }]
    counters := [(("bookingNumber"), 1),
                 (("doctorQueueNumber:1:2025-06-01"), 1)]
    doctorProfiles := [baseProfile]
    nextId := 2 }

/-- A fresh booking request by patient 20 against doctor 1 on the same
canonical date at a free time. -/
def dupDailyReq : BookingReq :=
  { user := 20
    doctorName := ("د. أحمد")
    doctorRole := ("طبيب")
    specialty := ("جلدية")
    specialtySlug := ("derm")
    appointmentDate := ("2025-06-01")
    appointmentTime := ("10:00")
    notes := ("")
    doctorId := some 1
    appointmentDateIso := some ("2025-06-01")
    appointmentTimeValue := some ("10:00") }

/-- Store refuting the C3 scenario: doctor 1 has three appointments
created in order with queue numbers [1, 3, 3] (the duplicated 3s sit on
different days, which the queue unique index allows). -/
def backfill133Store : Store :=
  { emptyStore with
    appts := [{ baseAppt with
                  id := 1, user := 20, doctorProfile := some 1,
                  status := .confirmed, bookingNumber := ("1"),
                  doctorQueueNumber := some 1, createdAt := 1 },
              { baseAppt with
                  id := 2, user := 21, doctorProfile := some 1,
                  appointmentTime := ("10:00"),
                  appointmentTimeValue := some ("10:00"),
                  status := .confirmed, bookingNumber := ("2"),
                  doctorQueueNumber := some 3, createdAt := 2 },
              { baseAppt with
                  id := 3, user := 22, doctorProfile := some 1,
                  appointmentDate := ("2025-06-02"),
                  appointmentDateIso := some ("2025-06-02"),
                  status := .confirmed, bookingNumber := ("3"),
                  doctorQueueNumber := some 3, createdAt := 3 }]
    counters := [(("bookingNumber"), 3), (("doctorQueueNumber:1"), 3)]
    doctorProfiles := [baseProfile]
    nextId := 4 }

/-- Store with detected queue drift for doctor 1: one appointment has no
queue number, the other carries 5. -/
def backfillDriftStore : Store :=
  { emptyStore with
    appts := [{ baseAppt with
                  id := 1, user := 20, doctorProfile := some 1,
                  status := .confirmed, bookingNumber := ("1"),
                  doctorQueueNumber := none, createdAt := 1 },
              { baseAppt with
                  id := 2, user := 21, doctorProfile := some 1,
                  appointmentDate := ("2025-06-02"),
                  appointmentDateIso := some ("2025-06-02"),
                  status := .confirmed, bookingNumber := ("2"),
                  doctorQueueNumber := some 5, createdAt := 2 }]
    counters := [(("bookingNumber"), 2), (("doctorQueueNumber:1"), 5)]
    doctorProfiles := [baseProfile]
    nextId := 3 }

/-- Store refuting C9 as stated: the two appointments carry booking
numbers "2" then "1" in creation order, so the first overwrite collides
with the still-unrenumbered "1". -/
def renumberCollideStore : Store :=
  { emptyStore with
    appts := [{ baseAppt with
                  id := 1, user := 20, status := .completed,
                  bookingNumber := ("2"), createdAt := 1 },
              { baseAppt with
                  id := 2, user := 21,
                  appointmentDate := ("2025-06-02"),
                  appointmentDateIso := some ("2025-06-02"),
                  status := .completed, bookingNumber := ("1"),
                  createdAt := 2 }]
    counters := [(("bookingNumber"), 2)]
    nextId := 3 }

/-- Store exercising the successful renumber walk: a missing number and a
leading-zero number that already parses to its position. -/
def renumberOkStore : Store :=
  { emptyStore with
    appts := [{ baseAppt with
                  id := 1, user := 20, status := .completed,
                  bookingNumber := (""), createdAt := 1 },
              { baseAppt with
                  id := 2, user := 21,
                  appointmentDate := ("2025-06-02"),
                  appointmentDateIso := some ("2025-06-02"),
                  status := .completed, bookingNumber := ("002"),
                  createdAt := 2 }]
    counters := [(("bookingNumber"), 7)]
    nextId := 3 }

/-- Store with a single confirmed appointment of patient 20 with doctor
1, used to exercise cancellation. -/
def cancelStore : Store :=
  { emptyStore with
    appts := [{ baseAppt with
                  id := 1, user := 20, doctorProfile := some 1,
                  status := .confirmed, bookingNumber := ("4"),
                  doctorQueueNumber := some 2,
                  qrCode := ("qr-image"), qrPayload := ("qr-data"),
                  createdAt := 1 }]
    counters := [(("bookingNumber"), 4)]
    doctorProfiles := [baseProfile]
    nextId := 2 }

/-- Store with a pending specialty-queue appointment (no doctor bound)
and a confirmed appointment of doctor 1 occupying the same slot, used to
exercise the accept-time re-validation. -/
def acceptStore : Store :=
  { emptyStore with
    appts := [{ baseAppt with
                  id := 1, user := 20, doctorProfile := none,
                  status := .pending, bookingNumber := ("1"),
                  createdAt := 1 },
              { baseAppt with
                  id := 2, user := 21, doctorProfile := some 1,
                  status := .confirmed, bookingNumber := ("2"),
                  doctorQueueNumber := some 1, createdAt := 2 }]
    counters := [(("bookingNumber"), 2)]
    doctorProfiles := [baseProfile]
    nextId := 3 }

/-- Store with a pending specialty-queue appointment and a free slot,
used to exercise the successful accept. -/
def acceptFreeStore : Store :=
  { emptyStore with
    appts := [{ baseAppt with
                  id := 1, user := 20, doctorProfile := none,
                  status := .pending, bookingNumber := ("1"),
                  createdAt := 1 }]
    counters := [(("bookingNumber"), 1)]
    doctorProfiles := [baseProfile]
    nextId := 2 }

/-- First writer's payload in the slot race: a fully keyed pending
appointment of doctor 1 at the contested slot. -/
def racePayload : Appt :=
  { baseAppt with
      id := 5, user := 20, doctorProfile := some 1,
      status := .pending, bookingNumber := ("1"),
      doctorQueueNumber := some 1, createdAt := 5 }

/-- Second writer's request in the slot race. -/
def raceReq : BookingReq :=
  { dupDailyReq with user := 21, appointmentTime := ("09:00"),
                     appointmentTimeValue := some ("09:00") }

/-- The store after the first racer's create: doctor 1's 09:00 slot on
2025-06-01 is held by the pending `racePayload`, the global booking
counter stands at 1 and the per-day queue counter at 1. -/
def raceStore : Store :=
  { emptyStore with
    appts := [racePayload]
    counters := [(("bookingNumber"), 1), (doctorQueueDayKey 1 ("2025-06-01"), 1)]
    doctorProfiles := [baseProfile]
    nextId := 6 }

/-- Store used to exercise the queue unique index: doctor 1 already has
queue number 1 on 2025-06-01. -/
def queueIdxStore : Store :=
  { emptyStore with
    appts := [{ baseAppt with
                  id := 1, user := 20, doctorProfile := some 1,
                  status := .confirmed, bookingNumber := ("1"),
                  doctorQueueNumber := some 1, createdAt := 1 }]
    counters := [(("bookingNumber"), 1)]
    doctorProfiles := [baseProfile]
    nextId := 2 }

/-- A document colliding with `queueIdxStore` on the queue index only:
same doctor, same date, same queue number, different time slot and
booking number. -/
def queueIdxPayload : Appt :=
  { baseAppt with
      id := 9, user := 22, doctorProfile := some 1,
      appointmentTime := ("11:00"), appointmentTimeValue := some ("11:00"),
      status := .confirmed, bookingNumber := ("9"),
      doctorQueueNumber := some 1, createdAt := 9 }

/-- Variant of `dupDailyStore` whose existing appointment is still
confirmed (active), so the duplicate-daily pre-check fires. -/
def dupDailyActiveStore : Store :=
  { dupDailyStore with
    appts := [{ baseAppt with
                  id := 1, user := 20, doctorProfile := some 1,
                  status := .confirmed, bookingNumber := ("1"),
                  doctorQueueNumber := some 1, createdAt := 1 }] }

/-- Store whose global booking counter stands at 57. -/
def counter57Store : Store :=
  { emptyStore with counters := [(("bookingNumber"), 57)] }

/-- The store `ensureDoctorQueueBackfill` produces from
`backfillDriftStore`: dense queue numbers 1, 2 in creation order, QR
caches cleared, doctor counter resynced to 2. -/
def backfillDriftResult : Store :=
  { backfillDriftStore with
    appts := [{ baseAppt with
                  id := 1, user := 20, doctorProfile := some 1,
                  status := .confirmed, bookingNumber := ("1"),
                  doctorQueueNumber := some 1, createdAt := 1 },
              { baseAppt with
                  id := 2, user := 21, doctorProfile := some 1,
                  appointmentDate := ("2025-06-02"),
                  appointmentDateIso := some ("2025-06-02"),
                  status := .confirmed, bookingNumber := ("2"),
                  doctorQueueNumber := some 2, createdAt := 2 }]
    counters := [(("bookingNumber"), 2), (("doctorQueueNumber:1"), 2)] }

/-- The store `renumberAllAppointments` produces from `renumberOkStore`:
the missing number becomes "1", the value-equal "002" is kept, and the
global counter is resynced to 2. -/
def renumberOkResult : Store :=
  { renumberOkStore with
    appts := [{ baseAppt with
                  id := 1, user := 20, status := .completed,
                  bookingNumber := ("1"), createdAt := 1 },
              { baseAppt with
                  id := 2, user := 21,
                  appointmentDate := ("2025-06-02"),
                  appointmentDateIso := some ("2025-06-02"),
                  status := .completed, bookingNumber := ("002"),
                  createdAt := 2 }]
    counters := [(("bookingNumber"), 2)] }

/-! ## Supporting lemmas: decimal strings -/

/-- Base-10 digit characters are digits and not whitespace. -/
theorem digitChar_good (m : Nat) (hm : m < 10) :
    (Nat.digitChar m).isDigit = true ∧ jsWs (Nat.digitChar m) = false := by
  interval_cases m <;> exact ⟨by decide, by decide⟩

/-- Decimal value of a base-10 digit character. -/
theorem digitChar_val (m : Nat) (hm : m < 10) :
    (Nat.digitChar m).toNat - 48 = m := by
  interval_cases m <;> decide

/-- Every character `Nat.toDigitsCore` emits over base 10 is a
non-whitespace digit (given the seed list is). -/
theorem toDigitsCore_good :
    ∀ (f n : Nat) (ds : List Char),
      (∀ c ∈ ds, c.isDigit = true ∧ jsWs c = false) →
      ∀ c ∈ Nat.toDigitsCore 10 f n ds, c.isDigit = true ∧ jsWs c = false := by
  intro f
  induction f with
  | zero => intro n ds h c hc; exact h c hc
  | succ f ih =>
      intro n ds h c hc
      rw [Nat.toDigitsCore] at hc
      by_cases h0 : n / 10 = 0
      · simp only [h0, if_pos] at hc
        rcases List.mem_cons.mp hc with rfl | hc
        · exact digitChar_good _ (Nat.mod_lt _ (by omega))
        · exact h c hc
      · simp only [h0, if_neg, if_false] at hc
        refine ih _ _ ?_ c hc
        intro c' hc'
        rcases List.mem_cons.mp hc' with rfl | hc'
        · exact digitChar_good _ (Nat.mod_lt _ (by omega))
        · exact h c' hc'

/-- The seed list survives: `toDigitsCore` never returns the empty list
when fed a non-empty seed. -/
theorem toDigitsCore_ne_nil_of_ne_nil :
    ∀ (f n : Nat) (ds : List Char), ds ≠ [] → Nat.toDigitsCore 10 f n ds ≠ [] := by
  intro f
  induction f with
  | zero => intro n ds h; rw [Nat.toDigitsCore]; exact h
  | succ f ih =>
      intro n ds h
      rw [Nat.toDigitsCore]
      by_cases h0 : n / 10 = 0
      · simp [h0]
      · simp only [h0, if_neg, if_false]
        exact ih _ _ (by simp)

/-- `Nat.toDigits` over base 10 is never empty. -/
theorem toDigits_ne_nil (n : Nat) : Nat.toDigits 10 n ≠ [] := by
  show Nat.toDigitsCore 10 (n + 1) n [] ≠ []
  rw [Nat.toDigitsCore]
  by_cases h0 : n / 10 = 0
  · simp [h0]
  · simp only [h0, if_neg, if_false]
    exact toDigitsCore_ne_nil_of_ne_nil _ _ _ (by simp)

/-- Folding the decimal-value step over the digits `toDigitsCore` emits
recovers the number (and continues over the seed list). -/
theorem foldl_toDigitsCore :
    ∀ (f n : Nat) (ds : List Char), n < f →
      List.foldl (fun a c => 10 * a + (c.toNat - 48)) 0
          (Nat.toDigitsCore 10 f n ds) =
        List.foldl (fun a c => 10 * a + (c.toNat - 48)) n ds := by
  intro f
  induction f with
  | zero => intro n ds h; omega
  | succ f ih =>
      intro n ds h
      rw [Nat.toDigitsCore]
      by_cases h0 : n / 10 = 0
      · have hn : n < 10 := by omega
        simp only [h0, if_pos, List.foldl_cons]
        have hv : 10 * 0 + ((Nat.digitChar (n % 10)).toNat - 48) = n := by
          rw [digitChar_val _ (Nat.mod_lt _ (by omega))]
          omega
        rw [hv]
      · have hrec : n / 10 < f := by
          have h1 : 0 < n := by
            rcases Nat.eq_zero_or_pos n with rfl | h1
            · simp at h0
            · exact h1
          have := Nat.div_lt_self h1 (by omega : 1 < 10)
          omega
        simp only [h0, if_neg, if_false]
        rw [ih _ _ hrec, List.foldl_cons]
        have hv : 10 * (n / 10) + ((Nat.digitChar (n % 10)).toNat - 48) = n := by
          rw [digitChar_val _ (Nat.mod_lt _ (by omega))]
          omega
        rw [hv]

/-- The characters of `toString n` are the base-10 digits. -/
theorem toString_nat_data (n : Nat) : (toString n).data = Nat.toDigits 10 n := rfl

/-- Dropping leading whitespace is the identity on whitespace-free
lists. -/
theorem dropWhile_jsWs_of_noWs (cs : List Char)
    (h : ∀ c ∈ cs, jsWs c = false) : cs.dropWhile jsWs = cs := by
  cases cs with
  | nil => rfl
  | cons a t =>
      rw [List.dropWhile_cons]
      simp [h a (List.mem_cons_self a t)]

/-- Trimming is the identity on whitespace-free lists. -/
theorem trimChars_of_noWs (cs : List Char)
    (h : ∀ c ∈ cs, jsWs c = false) : trimChars cs = cs := by
  unfold trimChars
  rw [dropWhile_jsWs_of_noWs cs h]
  rw [dropWhile_jsWs_of_noWs cs.reverse (by intro c hc; exact h c (List.mem_reverse.mp hc))]
  exact List.reverse_reverse cs

/-- `Nat.toDigits` is never the empty list (Boolean form). -/
theorem toDigits_isEmpty_false (n : Nat) :
    (Nat.toDigits 10 n).isEmpty = false := by
  cases hl : Nat.toDigits 10 n with
  | nil => exact absurd hl (toDigits_ne_nil n)
  | cons c t => rfl

/-- `String(n)` for a natural `n` passes the numeric-booking test. -/
theorem isNumericBooking_toString (n : Nat) :
    isNumericBooking (toString n) = true := by
  have hgood : ∀ c ∈ Nat.toDigits 10 n, c.isDigit = true ∧ jsWs c = false :=
    toDigitsCore_good (n + 1) n [] (by intro c hc; cases hc)
  unfold isNumericBooking jsTrim
  rw [toString_nat_data]
  rw [trimChars_of_noWs _ (fun c hc => (hgood c hc).2)]
  show (!(Nat.toDigits 10 n).isEmpty && (Nat.toDigits 10 n).all (·.isDigit)) = true
  rw [toDigits_isEmpty_false, List.all_eq_true.mpr fun c hc => (hgood c hc).1]
  rfl

/-- `Number(String(n)) = n`: parsing the decimal rendering recovers the
value. -/
theorem jsNumber_toString (n : Nat) : jsNumber (toString n) = some n := by
  have hgood : ∀ c ∈ Nat.toDigits 10 n, c.isDigit = true ∧ jsWs c = false :=
    toDigitsCore_good (n + 1) n [] (by intro c hc; cases hc)
  unfold jsNumber jsTrim
  rw [toString_nat_data]
  rw [trimChars_of_noWs _ (fun c hc => (hgood c hc).2)]
  show (if (Nat.toDigits 10 n).isEmpty = true then some 0
        else if (Nat.toDigits 10 n).all (·.isDigit) = true then
          some (digitsVal (Nat.toDigits 10 n))
        else none) = some n
  rw [toDigits_isEmpty_false]
  rw [if_neg (by simp), if_pos (List.all_eq_true.mpr fun c hc => (hgood c hc).1)]
  unfold digitsVal
  have h : List.foldl (fun a c => 10 * a + (c.toNat - 48)) 0
      (Nat.toDigitsCore 10 (n + 1) n []) = n := by
    rw [foldl_toDigitsCore (n + 1) n [] (Nat.lt_succ_self n)]
    rfl
  rw [show Nat.toDigits 10 n = Nat.toDigitsCore 10 (n + 1) n [] from rfl, h]

/-! ## Supporting lemmas: generic list facts -/

/-- `find?` commutes with a map that preserves the predicate. -/
theorem find?_map_pred {α : Type} (f : α → α) (p : α → Bool)
    (hf : ∀ x, p (f x) = p x) :
    ∀ l : List α, (l.map f).find? p = (l.find? p).map f := by
  intro l
  induction l with
  | nil => rfl
  | cons a t ih =>
      by_cases h : p a = true
      · rw [List.map_cons, List.find?_cons_of_pos _ ((hf a).trans h),
          List.find?_cons_of_pos _ h, Option.map_some']
      · rw [List.map_cons,
          List.find?_cons_of_neg _ (by rw [hf a]; exact h),
          List.find?_cons_of_neg _ h, ih]

/-- With distinct ids, `find?` by id recovers exactly the member. -/
theorem find?_id_of_mem {l : List Appt} {a : Appt}
    (hn : (l.map (·.id)).Nodup) (ha : a ∈ l) :
    l.find? (·.id = a.id) = some a := by
  induction l with
  | nil => cases ha
  | cons b t ih =>
      rcases List.mem_cons.mp ha with rfl | ha'
      · exact List.find?_cons_of_pos _ (by simp)
      · have hb : b.id ≠ a.id := by
          intro h
          have : b.id ∈ t.map (·.id) := h ▸ List.mem_map_of_mem (·.id) ha'
          exact (List.nodup_cons.mp hn).1 this
        rw [List.find?_cons_of_neg _ (by simpa using hb)]
        exact ih (List.nodup_cons.mp hn).2 ha'

/-! ## Supporting lemmas: the counter table -/

/-- The atomic `$inc` upsert: the returned value is the stored value plus
one (1 on a missing key), and the counter is left at the returned
value. -/
theorem counterIncr_spec (cs : List (String × Nat)) (k : String) :
    (counterIncr cs k).1 = (counterLookup cs k).getD 0 + 1 ∧
    counterLookup (counterIncr cs k).2 k =
      some ((counterLookup cs k).getD 0 + 1) := by
  unfold counterIncr
  cases h : counterLookup cs k with
  | none =>
      refine ⟨rfl, ?_⟩
      unfold counterLookup at h ⊢
      rcases hf : cs.find? (·.1 = k) with _ | p
      · rw [List.find?_append, hf, Option.none_or,
          List.find?_cons_of_pos _ (by simp)]
        rfl
      · rw [hf] at h; simp at h
  | some v =>
      refine ⟨rfl, ?_⟩
      unfold counterLookup at h ⊢
      rw [find?_map_pred (fun p => if p.1 = k then (k, v + 1) else p) (·.1 = k)
        (by intro x; by_cases hx : x.1 = k <;> simp [hx])]
      rcases hf : cs.find? (·.1 = k) with _ | p
      · rw [hf] at h; simp at h
      · rw [hf] at h
        obtain ⟨k₁, v₁⟩ := p
        have hk : k₁ = k := by simpa using List.find?_some hf
        subst hk
        rw [hf]
        simp only [Option.map_some', Option.some.injEq] at h
        simp [h]

/-- The `$set` upsert stores exactly the requested value. -/
theorem counterSetSeq_lookup (cs : List (String × Nat)) (k : String) (v : Nat) :
    counterLookup (counterSetSeq cs k v) k = some v := by
  unfold counterSetSeq
  cases h : counterLookup cs k with
  | none =>
      unfold counterLookup at h ⊢
      rcases hf : cs.find? (·.1 = k) with _ | p
      · rw [List.find?_append, hf, Option.none_or,
          List.find?_cons_of_pos _ (by simp)]
        rfl
      · rw [hf] at h; simp at h
  | some w =>
      unfold counterLookup at h ⊢
      rw [find?_map_pred (fun p => if p.1 = k then (k, v) else p) (·.1 = k)
        (by intro x; by_cases hx : x.1 = k <;> simp [hx])]
      rcases hf : cs.find? (·.1 = k) with _ | p
      · rw [hf] at h; simp at h
      · obtain ⟨k₁, v₁⟩ := p
        have hk : k₁ = k := by simpa using List.find?_some hf
        subst hk
        rw [hf]
        simp

/-- Value formula for a run of `n` atomic increments: the `i`-th call
returns the starting value plus `i + 1`. -/
theorem nextValues_fst :
    ∀ (n : Nat) (s : Store) (k : String),
      (nextValues s k n).1 =
        (List.range n).map fun i => (counterLookup s.counters k).getD 0 + i + 1 := by
  intro n
  induction n with
  | zero => intro s k; rfl
  | succ n ih =>
      intro s k
      have hinc := counterIncr_spec s.counters k
      show ((storeIncr s k).1 :: (nextValues (storeIncr s k).2 k n).1) = _
      rw [ih (storeIncr s k).2 k]
      have h2 : counterLookup (storeIncr s k).2.counters k =
          some ((counterLookup s.counters k).getD 0 + 1) := hinc.2
      rw [List.range_succ_eq_map, List.map_cons, List.map_map]
      show ((counterIncr s.counters k).1 :: _) = _
      rw [hinc.1, h2]
      refine congrArg₂ _ rfl ?_
      apply List.map_congr_left
      intro i _
      simp
      omega

/-- A run of atomic increments never hands out the same value twice. -/
theorem nextValues_nodup (n : Nat) (s : Store) (k : String) :
    (nextValues s k n).1.Nodup := by
  rw [nextValues_fst]
  exact List.Nodup.map (fun i j h => by omega) (List.nodup_range n)

/-! ## Supporting lemmas: unique indexes -/

/-- Propositional reading of a unique-index collision. -/
theorem dupKey_iff (a b : Appt) :
    dupKey a b = true ↔
      a.bookingNumber = b.bookingNumber ∨
      (queueKeyed a = true ∧ queueKeyed b = true ∧
        a.doctorProfile = b.doctorProfile ∧
        a.appointmentDateIso = b.appointmentDateIso ∧
        a.doctorQueueNumber = b.doctorQueueNumber) := by
  simp [dupKey, sameQueueKey, and_assoc]

/-- Unique-index collisions are symmetric. -/
theorem dupKey_comm (a b : Appt) : dupKey a b = dupKey b a := by
  rw [Bool.eq_iff_iff, dupKey_iff, dupKey_iff]
  constructor
  · rintro (h | ⟨h1, h2, h3, h4, h5⟩)
    · exact Or.inl h.symm
    · exact Or.inr ⟨h2, h1, h3.symm, h4.symm, h5.symm⟩
  · rintro (h | ⟨h1, h2, h3, h4, h5⟩)
    · exact Or.inl h.symm
    · exact Or.inr ⟨h2, h1, h3.symm, h4.symm, h5.symm⟩

/-- Building a collision-free verdict from the two index facts. -/
theorem dupKey_eq_false_iff (a b : Appt) :
    dupKey a b = false ↔
      ¬(a.bookingNumber = b.bookingNumber) ∧
      ¬(queueKeyed a = true ∧ queueKeyed b = true ∧
        a.doctorProfile = b.doctorProfile ∧
        a.appointmentDateIso = b.appointmentDateIso ∧
        a.doctorQueueNumber = b.doctorQueueNumber) := by
  rw [Bool.eq_false_iff, Ne, Bool.not_eq_true] at *
  rw [← Bool.not_eq_true, dupKey_iff]
  tauto

/-- Characterisation of a successful insert. -/
theorem insertAppt_ok_spec {s : Store} {a : Appt} {s' : Store}
    (h : insertAppt s a = .ok s') :
    (∀ b ∈ s.appts, b.id ≠ a.id ∧ dupKey a b = false) ∧
    s' = { s with appts := s.appts ++ [a] } := by
  unfold insertAppt at h
  by_cases hq : s.appts.any (fun b => b.id = a.id || dupKey a b) = true
  · rw [if_pos hq] at h; cases h
  · rw [if_neg hq] at h
    refine ⟨?_, by cases h; rfl⟩
    intro b hb
    simp only [List.any_eq_true, not_exists, not_and] at hq
    have := hq b hb
    simp only [Bool.or_eq_true, decide_eq_true_eq, not_or] at this
    exact ⟨this.1, by simpa using this.2⟩

/-- An insert colliding with a present document fails with the
duplicate-key error. -/
theorem insertAppt_error_of {s : Store} {a b : Appt}
    (hb : b ∈ s.appts) (hd : b.id = a.id ∨ dupKey a b = true) :
    insertAppt s a = .error .dupKey := by
  unfold insertAppt
  rw [if_pos]
  exact List.any_eq_true.mpr ⟨b, hb, by rcases hd with hd | hd <;> simp [hd]⟩

/-- A collision-free insert succeeds. -/
theorem insertAppt_ok_of {s : Store} {a : Appt}
    (h : ∀ b ∈ s.appts, b.id ≠ a.id ∧ dupKey a b = false) :
    insertAppt s a = .ok { s with appts := s.appts ++ [a] } := by
  unfold insertAppt
  rw [if_neg]
  simp only [List.any_eq_true, not_exists, not_and]
  intro b hb
  simp [(h b hb).1, (h b hb).2]

/-- Characterisation of a successful save. -/
theorem saveAppt_ok_spec {s : Store} {a : Appt} {s' : Store}
    (h : saveAppt s a = .ok s') :
    (∀ b ∈ s.appts, b.id ≠ a.id → dupKey a b = false) ∧
    s' = { s with appts := s.appts.map fun b => if b.id = a.id then a else b } := by
  unfold saveAppt at h
  by_cases hq : s.appts.any (fun b => !(b.id = a.id) && dupKey a b) = true
  · rw [if_pos hq] at h; cases h
  · rw [if_neg hq] at h
    refine ⟨?_, by cases h; rfl⟩
    intro b hb hne
    simp only [List.any_eq_true, not_exists, not_and] at hq
    have := hq b hb
    simp only [Bool.and_eq_true, Bool.not_eq_true', decide_eq_false_iff_not, not_and] at this
    simpa using this hne

/-- A save that would collide with a different stored document fails with
the duplicate-key error. -/
theorem saveAppt_error_of {s : Store} {a b : Appt}
    (hb : b ∈ s.appts) (hne : b.id ≠ a.id) (hd : dupKey a b = true) :
    saveAppt s a = .error .dupKey := by
  unfold saveAppt
  rw [if_pos]
  exact List.any_eq_true.mpr ⟨b, hb, by simp [hne, hd]⟩

/-- A collision-free save succeeds. -/
theorem saveAppt_ok_of {s : Store} {a : Appt}
    (h : ∀ b ∈ s.appts, b.id ≠ a.id → dupKey a b = false) :
    saveAppt s a = .ok { s with appts := s.appts.map fun b => if b.id = a.id then a else b } := by
  unfold saveAppt
  rw [if_neg]
  simp only [List.any_eq_true, not_exists, not_and]
  intro b hb
  by_cases hne : b.id = a.id <;> simp [hne, h b hb]

/-- A successful save keeps every non-appointment field of the store. -/
theorem saveAppt_ok_frame {s : Store} {a : Appt} {s' : Store}
    (h : saveAppt s a = .ok s') :
    s'.counters = s.counters ∧ s'.doctorProfiles = s.doctorProfiles ∧
    s'.blocks = s.blocks ∧ s'.now = s.now ∧ s'.nextId = s.nextId := by
  rcases saveAppt_ok_spec h with ⟨-, rfl⟩
  exact ⟨rfl, rfl, rfl, rfl, rfl⟩

/-- The save replacement map never changes a document's id. -/
theorem save_map_id_eq (l : List Appt) (a : Appt) :
    (l.map fun b => if b.id = a.id then a else b).map (·.id) = l.map (·.id) := by
  rw [List.map_map]
  apply List.map_congr_left
  intro b _
  by_cases hb : b.id = a.id <;> simp [hb]

/-- Documents other than the saved one are untouched. -/
theorem saveAppt_find_ne {s : Store} {a : Appt} {s' : Store}
    (h : saveAppt s a = .ok s') {j : Nat} (hj : j ≠ a.id) :
    findAppt s' j = findAppt s j := by
  rcases saveAppt_ok_spec h with ⟨-, rfl⟩
  unfold findAppt
  rw [find?_map_pred (fun b => if b.id = a.id then a else b) (·.id = j)
    (by intro b; by_cases hb : b.id = a.id <;> simp [hb])]
  rcases hf : s.appts.find? (·.id = j) with _ | b
  · rw [hf]; rfl
  · rw [hf]
    have hbj : b.id = j := by simpa using List.find?_some hf
    simp only [Option.map_some']
    rw [if_neg (by rw [hbj]; exact hj)]

/-- The saved document replaces its stored version. -/
theorem saveAppt_find_self {s : Store} {a c : Appt} {s' : Store}
    (h : saveAppt s a = .ok s') (hpres : findAppt s a.id = some c) :
    findAppt s' a.id = some a := by
  rcases saveAppt_ok_spec h with ⟨-, rfl⟩
  unfold findAppt at hpres ⊢
  rw [find?_map_pred (fun b => if b.id = a.id then a else b) (·.id = a.id)
    (by intro b; by_cases hb : b.id = a.id <;> simp [hb])]
  rw [hpres]
  have hc : c.id = a.id := by simpa using List.find?_some hpres
  simp [hc]

/-- A successful insert preserves index consistency. -/
theorem insert_preserves_valid {s : Store} {a : Appt} {s' : Store}
    (hv : storeValid s) (h : insertAppt s a = .ok s') : storeValid s' := by
  rcases insertAppt_ok_spec h with ⟨hall, rfl⟩
  constructor
  · show ((s.appts ++ [a]).map (·.id)).Nodup
    rw [List.map_append]
    refine List.Nodup.append hv.1 (List.nodup_singleton _) ?_
    intro x hx hx'
    simp only [List.map_cons, List.map_nil, List.mem_singleton] at hx'
    obtain ⟨b, hb, hbid⟩ := List.mem_map.mp hx
    exact (hall b hb).1 (by rw [hbid, hx'])
  · show (s.appts ++ [a]).Pairwise fun x y => dupKey x y = false
    rw [List.pairwise_append]
    refine ⟨hv.2, List.pairwise_singleton _ _, ?_⟩
    intro x hx y hy
    simp only [List.mem_singleton] at hy
    subst hy
    rw [dupKey_comm]
    exact (hall x hx).2

/-- The replacement map of a collision-free save preserves pairwise
index consistency. -/
theorem pairwise_map_save {l : List Appt} {a : Appt}
    (hn : (l.map (·.id)).Nodup)
    (hp : l.Pairwise fun x y => dupKey x y = false)
    (hall : ∀ b ∈ l, b.id ≠ a.id → dupKey a b = false) :
    (l.map fun b => if b.id = a.id then a else b).Pairwise
      fun x y => dupKey x y = false := by
  induction l with
  | nil => exact List.Pairwise.nil
  | cons b t ih =>
      rw [List.map_cons, List.pairwise_cons]
      have hnt : (t.map (·.id)).Nodup := (List.nodup_cons.mp hn).2
      have hbt : b.id ∉ t.map (·.id) := (List.nodup_cons.mp hn).1
      have hpt := (List.pairwise_cons.mp hp).2
      have hph := (List.pairwise_cons.mp hp).1
      refine ⟨?_, ih hnt hpt fun c hc hcne => hall c (List.mem_cons_of_mem b hc) hcne⟩
      intro y hy
      obtain ⟨c, hc, rfl⟩ := List.mem_map.mp hy
      by_cases hbid : b.id = a.id
      · rw [if_pos hbid]
        have hcne : c.id ≠ a.id := by
          intro hca
          exact hbt (by rw [hbid, ← hca]; exact List.mem_map_of_mem (·.id) hc)
        rw [if_neg hcne]
        exact hall c (List.mem_cons_of_mem b hc) hcne
      · rw [if_neg hbid]
        by_cases hcid : c.id = a.id
        · rw [if_pos hcid, dupKey_comm]
          exact hall b (List.mem_cons_self b t) hbid
        · rw [if_neg hcid]
          exact hph c hc

/-- A successful save preserves index consistency. -/
theorem save_preserves_valid {s : Store} {a : Appt} {s' : Store}
    (hv : storeValid s) (h : saveAppt s a = .ok s') : storeValid s' := by
  rcases saveAppt_ok_spec h with ⟨hall, hs'⟩
  subst hs'
  refine ⟨?_, pairwise_map_save hv.1 hv.2 hall⟩
  show ((s.appts.map fun b => if b.id = a.id then a else b).map (·.id)).Nodup
  rw [save_map_id_eq]
  exact hv.1

/-! ## Supporting lemmas: ensureBookingNumber -/

/-- The document `ensureBookingNumber` hands back: unchanged when the
stored number is already a valid numeric string, else stamped with the
next global number. -/
theorem ensureBookingNumber_fst (s : Store) (a : Appt) :
    (ensureBookingNumber s a).1 =
      if isNumericBooking a.bookingNumber then a
      else { a with bookingNumber := (getNextBookingNumber s).1 } := by
  unfold ensureBookingNumber
  by_cases h : isNumericBooking a.bookingNumber = true
  · rw [if_pos h, if_pos h]
    cases hs : saveAppt s a <;> simp [hs]
  · rw [if_neg h, if_neg h]
    cases hs : saveAppt (getNextBookingNumber s).2
        { a with bookingNumber := (getNextBookingNumber s).1 } <;> simp [hs]

/-- On an already-numeric document, `ensureBookingNumber` keeps the
number and never touches a counter. -/
theorem ensureBookingNumber_numeric {s : Store} {a : Appt}
    (h : isNumericBooking a.bookingNumber = true) :
    (ensureBookingNumber s a).1 = a ∧
    (ensureBookingNumber s a).2.counters = s.counters := by
  unfold ensureBookingNumber
  rw [if_pos h]
  cases hs : saveAppt s a with
  | ok s₂ => simpa [hs] using (saveAppt_ok_frame hs).1
  | error e => simp [hs]

/-- The handed-back document always carries a valid numeric booking
number. -/
theorem ensureBookingNumber_fst_numeric (s : Store) (a : Appt) :
    isNumericBooking (ensureBookingNumber s a).1.bookingNumber = true := by
  rw [ensureBookingNumber_fst]
  by_cases h : isNumericBooking a.bookingNumber = true
  · rw [if_pos h]; exact h
  · rw [if_neg h]
    show isNumericBooking (getNextBookingNumber s).1 = true
    exact isNumericBooking_toString _

/-- `ensureBookingNumber` preserves index consistency. -/
theorem ensure_preserves_valid {s : Store} (a : Appt) (hv : storeValid s) :
    storeValid (ensureBookingNumber s a).2 := by
  unfold ensureBookingNumber
  by_cases h : isNumericBooking a.bookingNumber = true
  · rw [if_pos h]
    cases hs : saveAppt s a with
    | ok s₂ => simpa [hs] using save_preserves_valid hv hs
    | error e => simpa [hs] using hv
  · rw [if_neg h]
    have hv₁ : storeValid (getNextBookingNumber s).2 := hv
    cases hs : saveAppt (getNextBookingNumber s).2
        { a with bookingNumber := (getNextBookingNumber s).1 } with
    | ok s₂ => simpa [hs] using save_preserves_valid hv₁ hs
    | error e => simpa [hs] using hv₁

/-- Reading other documents through `ensureBookingNumber`, and the
possible outcomes for the ensured document itself. -/
theorem ensureBookingNumber_find {s : Store} {a c : Appt}
    (hpres : findAppt s a.id = some c) :
    (∀ j, j ≠ a.id → findAppt (ensureBookingNumber s a).2 j = findAppt s j) ∧
    (findAppt (ensureBookingNumber s a).2 a.id = findAppt s a.id ∨
     findAppt (ensureBookingNumber s a).2 a.id = some (ensureBookingNumber s a).1) := by
  unfold ensureBookingNumber
  by_cases h : isNumericBooking a.bookingNumber = true
  · rw [if_pos h]
    cases hs : saveAppt s a with
    | ok s₂ =>
        refine ⟨fun j hj => by simpa [hs] using saveAppt_find_ne hs hj, Or.inr ?_⟩
        simpa [hs] using saveAppt_find_self hs hpres
    | error e => exact ⟨fun j hj => by simp [hs], Or.inl (by simp [hs])⟩
  · rw [if_neg h]
    have hpres₁ : findAppt (getNextBookingNumber s).2 a.id = some c := hpres
    cases hs : saveAppt (getNextBookingNumber s).2
        { a with bookingNumber := (getNextBookingNumber s).1 } with
    | ok s₂ =>
        refine ⟨fun j hj => by simpa [hs] using saveAppt_find_ne hs hj, Or.inr ?_⟩
        simpa [hs] using saveAppt_find_self hs hpres₁
    | error e =>
        exact ⟨fun j hj => by simp only [hs]; rfl, Or.inl (by simp only [hs]; rfl)⟩

/-- On a numeric-numbered document whose save is collision-free and
whose id is held only by itself, `ensureBookingNumber` leaves the
document list unchanged. -/
theorem ensureBookingNumber_appts_of_numeric (s : Store) (a : Appt)
    (hnum : isNumericBooking a.bookingNumber = true)
    (hok : ∀ b ∈ s.appts, b.id ≠ a.id → dupKey a b = false)
    (hself : ∀ b ∈ s.appts, b.id = a.id → b = a) :
    (ensureBookingNumber s a).2.appts = s.appts := by
  unfold ensureBookingNumber
  rw [if_pos hnum]
  dsimp only
  have hsave := saveAppt_ok_of hok
  rw [hsave]
  show (s.appts.map fun b => if b.id = a.id then a else b) = s.appts
  conv_rhs => rw [← List.map_id s.appts]
  apply List.map_congr_left
  intro b hb
  by_cases hbe : b.id = a.id
  · rw [if_pos hbe]
    exact (hself b hb hbe).symm
  · rw [if_neg hbe]
    rfl

/-! ## Supporting lemmas: the stable sort -/

/-- Inserting is a permutation of consing. -/
theorem insertByCreated_perm (a : Appt) (l : List Appt) :
    List.Perm (insertByCreated a l) (a :: l) := by
  induction l with
  | nil => exact List.Perm.refl _
  | cons b t ih =>
      rw [insertByCreated]
      by_cases hc : a.createdAt ≤ b.createdAt
      · rw [if_pos hc]
      · rw [if_neg hc]
        exact (ih.cons b).trans (List.Perm.swap a b t)

/-- The creation-order sort permutes its input. -/
theorem sortByCreated_perm (l : List Appt) : List.Perm (sortByCreated l) l := by
  induction l with
  | nil => exact List.Perm.refl _
  | cons a t ih =>
      rw [sortByCreated]
      exact (insertByCreated_perm a (sortByCreated t)).trans (ih.cons a)

/-! ## Supporting lemmas: the renumber walks -/

/-- Full specification of the queue renumber walk on success: the final
`seq` counts the walked documents, counters are untouched, documents
outside the walk are untouched, and the walked documents carry the dense
numbers `seq+1, seq+2, …` in walk order. -/
theorem renumberQueueLoop_spec :
    ∀ (l : List Appt) (seq : Nat) (s : Store) (res : Nat × Store),
      (l.map (·.id)).Nodup →
      (∀ a ∈ l, findAppt s a.id = some a) →
      renumberQueueLoop l seq s = .ok res →
      res.1 = seq + l.length ∧
      res.2.counters = s.counters ∧
      (∀ j, j ∉ l.map (·.id) → findAppt res.2 j = findAppt s j) ∧
      List.Forall₂ (fun (a : Appt) (k : Nat) => queueNumAt res.2 a.id = some k)
        l (List.range' (seq + 1) l.length) := by
  intro l
  induction l with
  | nil =>
      intro seq s res hn hpres h
      rw [renumberQueueLoop] at h
      injection h with h
      subst h
      exact ⟨rfl, rfl, fun j _ => rfl, List.Forall₂.nil⟩
  | cons a rest ih =>
      intro seq s res hn hpres h
      rw [renumberQueueLoop] at h
      have hnt : (rest.map (·.id)).Nodup := (List.nodup_cons.mp hn).2
      have hhead : a.id ∉ rest.map (·.id) := (List.nodup_cons.mp hn).1
      by_cases hskip : a.doctorQueueNumber = some (seq + 1)
      · rw [if_pos hskip] at h
        have ihr := ih (seq + 1) s res hnt
          (fun b hb => hpres b (List.mem_cons_of_mem a hb)) h
        refine ⟨by rw [ihr.1]; simp; omega, ihr.2.1, ?_, ?_⟩
        · intro j hj
          exact ihr.2.2.1 j fun hj' => hj (List.mem_cons_of_mem _ hj')
        · show List.Forall₂ _ (a :: rest) (List.range' (seq + 1) (rest.length + 1))
          rw [List.range'_succ]
          refine List.forall₂_cons.mpr ⟨?_, ihr.2.2.2⟩
          have hfa : findAppt res.2 a.id = findAppt s a.id := ihr.2.2.1 a.id hhead
          unfold queueNumAt
          rw [hfa, hpres a (List.mem_cons_self a rest)]
          simpa using hskip
      · rw [if_neg hskip] at h
        cases hs : saveAppt s { a with doctorQueueNumber := some (seq + 1),
                                       qrCode := (""), qrPayload := ("") } with
        | error e => rw [hs] at h; cases h
        | ok s₁ =>
            rw [hs] at h
            have hpres₁ : ∀ b ∈ rest, findAppt s₁ b.id = some b := by
              intro b hb
              have hbne : b.id ≠ a.id := by
                intro hba
                exact hhead (hba ▸ List.mem_map_of_mem (·.id) hb)
              rw [saveAppt_find_ne hs hbne]
              exact hpres b (List.mem_cons_of_mem a hb)
            have ihr := ih (seq + 1) s₁ res hnt hpres₁ h
            have hself : findAppt s₁ a.id =
                some { a with doctorQueueNumber := some (seq + 1),
                              qrCode := (""), qrPayload := ("") } :=
              saveAppt_find_self hs (hpres a (List.mem_cons_self a rest))
            refine ⟨by rw [ihr.1]; simp; omega,
              ihr.2.1.trans (saveAppt_ok_frame hs).1, ?_, ?_⟩
            · intro j hj
              have hj1 : j ∉ rest.map (·.id) := fun hj' => hj (List.mem_cons_of_mem _ hj')
              have hjne : j ≠ a.id := by
                intro hja
                exact hj (hja ▸ List.mem_cons_self _ _)
              rw [ihr.2.2.1 j hj1, saveAppt_find_ne hs hjne]
            · show List.Forall₂ _ (a :: rest) (List.range' (seq + 1) (rest.length + 1))
              rw [List.range'_succ]
              refine List.forall₂_cons.mpr ⟨?_, ihr.2.2.2⟩
              have hfa : findAppt res.2 a.id = findAppt s₁ a.id := ihr.2.2.1 a.id hhead
              unfold queueNumAt
              rw [hfa, hself]
              rfl

/-- Full specification of the booking renumber walk on success: each
walked document ends up with the digit string of its position, except one
whose stored number already parsed to that position, which is kept
verbatim. -/
theorem renumberBookingLoop_spec :
    ∀ (l : List Appt) (seq : Nat) (s : Store) (res : Nat × Store),
      (l.map (·.id)).Nodup →
      (∀ a ∈ l, findAppt s a.id = some a) →
      renumberBookingLoop l seq s = .ok res →
      res.1 = seq + l.length ∧
      res.2.counters = s.counters ∧
      (∀ j, j ∉ l.map (·.id) → findAppt res.2 j = findAppt s j) ∧
      List.Forall₂ (fun (a : Appt) (k : Nat) =>
          bookingNumAt res.2 a.id = some (toString k) ∨
          (bookingNumAt res.2 a.id = some a.bookingNumber ∧
           jsNumber a.bookingNumber = some k))
        l (List.range' (seq + 1) l.length) := by
  intro l
  induction l with
  | nil =>
      intro seq s res hn hpres h
      rw [renumberBookingLoop] at h
      injection h with h
      subst h
      exact ⟨rfl, rfl, fun j _ => rfl, List.Forall₂.nil⟩
  | cons a rest ih =>
      intro seq s res hn hpres h
      rw [renumberBookingLoop] at h
      have hnt : (rest.map (·.id)).Nodup := (List.nodup_cons.mp hn).2
      have hhead : a.id ∉ rest.map (·.id) := (List.nodup_cons.mp hn).1
      by_cases hskip : (a.bookingNumber = ("") ||
          !(jsNumber a.bookingNumber = some (seq + 1))) = true
      · rw [if_pos hskip] at h
        cases hs : saveAppt s { a with bookingNumber := toString (seq + 1) } with
        | error e => rw [hs] at h; cases h
        | ok s₁ =>
            rw [hs] at h
            have hpres₁ : ∀ b ∈ rest, findAppt s₁ b.id = some b := by
              intro b hb
              have hbne : b.id ≠ a.id := by
                intro hba
                exact hhead (hba ▸ List.mem_map_of_mem (·.id) hb)
              rw [saveAppt_find_ne hs hbne]
              exact hpres b (List.mem_cons_of_mem a hb)
            have ihr := ih (seq + 1) s₁ res hnt hpres₁ h
            have hself : findAppt s₁ a.id =
                some { a with bookingNumber := toString (seq + 1) } :=
              saveAppt_find_self hs (hpres a (List.mem_cons_self a rest))
            refine ⟨by rw [ihr.1]; simp; omega,
              ihr.2.1.trans (saveAppt_ok_frame hs).1, ?_, ?_⟩
            · intro j hj
              have hj1 : j ∉ rest.map (·.id) := fun hj' => hj (List.mem_cons_of_mem _ hj')
              have hjne : j ≠ a.id := by
                intro hja
                exact hj (hja ▸ List.mem_cons_self _ _)
              rw [ihr.2.2.1 j hj1, saveAppt_find_ne hs hjne]
            · show List.Forall₂ _ (a :: rest) (List.range' (seq + 1) (rest.length + 1))
              rw [List.range'_succ]
              refine List.forall₂_cons.mpr ⟨?_, ihr.2.2.2⟩
              have hfa : findAppt res.2 a.id = findAppt s₁ a.id := ihr.2.2.1 a.id hhead
              refine Or.inl ?_
              unfold bookingNumAt
              rw [hfa, hself]
              rfl
      · rw [if_neg hskip] at h
        have ihr := ih (seq + 1) s res hnt
          (fun b hb => hpres b (List.mem_cons_of_mem a hb)) h
        simp only [Bool.or_eq_true, Bool.not_eq_true', decide_eq_true_eq,
          decide_eq_false_iff_not, not_or] at hskip
        refine ⟨by rw [ihr.1]; simp; omega, ihr.2.1, ?_, ?_⟩
        · intro j hj
          exact ihr.2.2.1 j fun hj' => hj (List.mem_cons_of_mem _ hj')
        · show List.Forall₂ _ (a :: rest) (List.range' (seq + 1) (rest.length + 1))
          rw [List.range'_succ]
          refine List.forall₂_cons.mpr ⟨?_, ihr.2.2.2⟩
          have hfa : findAppt res.2 a.id = findAppt s a.id := ihr.2.2.1 a.id hhead
          refine Or.inr ⟨?_, ?_⟩
          · unfold bookingNumAt
            rw [hfa, hpres a (List.mem_cons_self a rest)]
            rfl
          · rcases hskip with ⟨-, h2⟩
            simpa using h2

/-- Ids stay distinct on the doctor's sub-collection. -/
theorem doctorAppts_ids_nodup {s : Store} (hv : storeValid s) (d : Nat) :
    ((doctorAppts s d).map (·.id)).Nodup :=
  List.Nodup.sublist (List.Sublist.map (·.id) (List.filter_sublist s.appts)) hv.1

/-- Ids stay distinct after the creation-order sort. -/
theorem sorted_ids_nodup {l : List Appt} (hn : (l.map (·.id)).Nodup) :
    ((sortByCreated l).map (·.id)).Nodup :=
  (List.Perm.nodup_iff ((sortByCreated_perm l).map (·.id))).mpr hn

/-- Every document of the sorted doctor sub-collection is found in the
store under its id. -/
theorem sorted_doctorAppts_pres {s : Store} (hv : storeValid s) (d : Nat) :
    ∀ a ∈ sortByCreated (doctorAppts s d), findAppt s a.id = some a := by
  intro a ha
  have ha₁ : a ∈ doctorAppts s d := (sortByCreated_perm _).mem_iff.mp ha
  exact find?_id_of_mem hv.1 (List.mem_of_mem_filter ha₁)

/-- Every document of the sorted full collection is found in the store
under its id. -/
theorem sorted_appts_pres {s : Store} (hv : storeValid s) :
    ∀ a ∈ sortByCreated s.appts, findAppt s a.id = some a := by
  intro a ha
  exact find?_id_of_mem hv.1 ((sortByCreated_perm _).mem_iff.mp ha)

/-! ## Claim theorems -/

/-- C8.  Sequence Allocator functional contract: on a store where the
counter is absent, the atomic find-and-increment creates it and returns
1; on a store where it holds `v`, it returns `v + 1` and leaves the
counter at `v + 1`, so an immediately following call returns `v + 2`.
`getNextBookingNumber` renders the allocated value as a digit string over
the fixed global key, and `getNextDoctorQueueNumber` returns it as a
number over the doctor-scoped key (null without a doctor). -/
theorem nextValue_contract (s : Store) (k : String) :
    (counterLookup s.counters k = none →
      (storeIncr s k).1 = 1 ∧
      counterLookup (storeIncr s k).2.counters k = some 1) ∧
    (∀ v, counterLookup s.counters k = some v →
      (storeIncr s k).1 = v + 1 ∧
      counterLookup (storeIncr s k).2.counters k = some (v + 1) ∧
      (storeIncr (storeIncr s k).2 k).1 = v + 2) ∧
    (getNextBookingNumber s).1 = toString (storeIncr s ("bookingNumber")).1 ∧
    (∀ d, (getNextDoctorQueueNumber s (some d)).1 =
      some (storeIncr s (doctorQueueKey d)).1) ∧
    (getNextDoctorQueueNumber s none).1 = none := by
  refine ⟨?_, ?_, rfl, fun d => rfl, rfl⟩
  · intro h
    have hspec := counterIncr_spec s.counters k
    rw [h] at hspec
    exact ⟨hspec.1, hspec.2⟩
  · intro v h
    have hspec := counterIncr_spec s.counters k
    rw [h] at hspec
    refine ⟨hspec.1, hspec.2, ?_⟩
    have hspec₂ := counterIncr_spec (storeIncr s k).2.counters k
    have hl : counterLookup (storeIncr s k).2.counters k = some (v + 1) := hspec.2
    rw [hl] at hspec₂
    exact hspec₂.1

/-- Witness for C8 at a concrete store: the `bookingNumber` counter is
absent from the empty store and the first allocation returns 1. -/
theorem nextValue_contract_witness :
    counterLookup emptyStore.counters ("bookingNumber") = none ∧
    (storeIncr emptyStore ("bookingNumber")).1 = 1 := by
  refine ⟨by decide, ?_⟩
  exact ((nextValue_contract emptyStore ("bookingNumber")).1 (by decide)).1

/-- C2.  Sequence Allocator under concurrency: each `$inc` call is a
single atomic storage step, so any interleaving of `n` concurrent
callers is some sequence of `n` calls; in every such sequence the `i`-th
call returns `start + i + 1`, all returned values are distinct, and with
the counter at 57 ten calls return exactly 58..67. -/
theorem nextValues_concurrent (s : Store) (k : String) :
    (∀ n, (nextValues s k n).1 =
        (List.range n).map (fun i => (counterLookup s.counters k).getD 0 + i + 1) ∧
      (nextValues s k n).1.Nodup) ∧
    (counterLookup s.counters k = some 57 →
      (nextValues s k 10).1 = [58, 59, 60, 61, 62, 63, 64, 65, 66, 67]) := by
  refine ⟨fun n => ⟨nextValues_fst n s k, nextValues_nodup n s k⟩, ?_⟩
  intro h
  rw [nextValues_fst, h]
  decide

/-- Witness for C2 at a concrete store whose global counter stands at
57: the ten allocated values are exactly 58..67. -/
theorem nextValues_concurrent_witness :
    counterLookup counter57Store.counters ("bookingNumber") = some 57 ∧
    (nextValues counter57Store ("bookingNumber") 10).1 =
      [58, 59, 60, 61, 62, 63, 64, 65, 66, 67] := by
  refine ⟨by decide, ?_⟩
  exact (nextValues_concurrent counter57Store ("bookingNumber")).2 (by decide)

/-- C4.  Idempotent booking-number assignment: on an appointment already
carrying a valid numeric-string booking number, `ensureBookingNumber`
keeps the number and performs no allocator increment (the counter table
is untouched); consequently, for any appointment, a second call returns
the same number as the first and performs no further increment. -/
theorem ensureBookingNumber_idempotent (s : Store) (a : Appt) :
    (isNumericBooking a.bookingNumber = true →
      (ensureBookingNumber s a).1.bookingNumber = a.bookingNumber ∧
      (ensureBookingNumber s a).2.counters = s.counters) ∧
    ((ensureBookingNumber (ensureBookingNumber s a).2
        (ensureBookingNumber s a).1).1.bookingNumber =
      (ensureBookingNumber s a).1.bookingNumber ∧
     (ensureBookingNumber (ensureBookingNumber s a).2
        (ensureBookingNumber s a).1).2.counters =
      (ensureBookingNumber s a).2.counters) := by
  constructor
  · intro h
    have := ensureBookingNumber_numeric (s := s) h
    exact ⟨by rw [this.1], this.2⟩
  · have h₁ := ensureBookingNumber_fst_numeric s a
    have := ensureBookingNumber_numeric
      (s := (ensureBookingNumber s a).2) h₁
    exact ⟨by rw [this.1], this.2⟩

/-- Witness for C4 at a concrete appointment carrying the numeric
booking number "7": the number and the counters survive the call. -/
theorem ensureBookingNumber_idempotent_witness :
    isNumericBooking ({ baseAppt with bookingNumber := ("7") } : Appt).bookingNumber = true ∧
    (ensureBookingNumber emptyStore
        { baseAppt with bookingNumber := ("7") }).1.bookingNumber = ("7") ∧
    (ensureBookingNumber emptyStore
        { baseAppt with bookingNumber := ("7") }).2.counters = emptyStore.counters := by
  refine ⟨by decide, ?_⟩
  have h := (ensureBookingNumber_idempotent emptyStore
    { baseAppt with bookingNumber := ("7") }).1 (by decide)
  exact ⟨h.1, h.2⟩

/-- C3 (amended).  Queue densification when the drift heuristic fires:
if `ensureDoctorQueueBackfill(D)` detects drift (assigned ≠ total or
max ≠ total or min ≠ 1) and completes without a duplicate-key abort,
then D's appointments taken in creation-time order carry exactly the
queue numbers 1..N (N = count of D's appointments), the doctor counter
is resynced to N, and no other document is touched. -/
theorem backfill_densifies {s : Store} {d : Nat} {s' : Store}
    (hv : storeValid s) (hdrift : queueDrift s d = true)
    (h : ensureDoctorQueueBackfill s d = .ok s') :
    List.Forall₂ (fun (a : Appt) (k : Nat) => queueNumAt s' a.id = some k)
      (sortByCreated (doctorAppts s d))
      (List.range' 1 (doctorAppts s d).length) ∧
    (0 < (doctorAppts s d).length →
      counterLookup s'.counters (doctorQueueKey d) =
        some (doctorAppts s d).length) ∧
    (∀ j, j ∉ (doctorAppts s d).map (·.id) → findAppt s' j = findAppt s j) := by
  unfold ensureDoctorQueueBackfill at h
  by_cases h0 : (doctorAppts s d).length = 0
  · rw [if_pos h0] at h
    injection h with h
    subst h
    have hnil : doctorAppts s d = [] := List.length_eq_zero.mp h0
    refine ⟨?_, fun h1 => absurd h0 (by omega), fun j _ => rfl⟩
    rw [hnil]
    exact List.Forall₂.nil
  · rw [if_neg h0, hdrift] at h
    simp only [Bool.not_true, Bool.false_eq_true, if_false] at h
    cases hloop : renumberQueueLoop (sortByCreated (doctorAppts s d)) 0 s with
    | error e => rw [hloop] at h; cases h
    | ok p =>
        rw [hloop] at h
        obtain ⟨seq, s₁⟩ := p
        injection h with h
        subst h
        have hlen : (sortByCreated (doctorAppts s d)).length =
            (doctorAppts s d).length := (sortByCreated_perm _).length_eq
        have hspec := renumberQueueLoop_spec (sortByCreated (doctorAppts s d)) 0 s
          (seq, s₁)
          (sorted_ids_nodup (doctorAppts_ids_nodup hv d))
          (sorted_doctorAppts_pres hv d) hloop
        have hseq : seq = (doctorAppts s d).length := by
          have := hspec.1
          simp only [Nat.zero_add] at this
          rw [this, hlen]
        refine ⟨?_, ?_, ?_⟩
        · have hf := hspec.2.2.2
          rw [hlen] at hf
          exact hf
        · intro h1
          show counterLookup
            (counterSetSeq s₁.counters (doctorQueueKey d) seq) (doctorQueueKey d) =
            some (doctorAppts s d).length
          rw [counterSetSeq_lookup, hseq]
        · intro j hj
          have hj' : j ∉ (sortByCreated (doctorAppts s d)).map (·.id) := by
            intro hmem
            exact hj (((sortByCreated_perm (doctorAppts s d)).map (·.id)).mem_iff.mp hmem)
          exact hspec.2.2.1 j hj'

/-- Counterexample to C3 as stated: over `backfill133Store` doctor 1's
three appointments carry queue numbers [1, 3, 3] in creation order, yet
the drift heuristic (assigned = total, max = total, min = 1) sees no
drift, so `ensureDoctorQueueBackfill` completes without renumbering and
the numbers stay [1, 3, 3] instead of becoming [1, 2, 3]. -/
theorem backfill_counterexample :
    ensureDoctorQueueBackfill backfill133Store 1 = .ok backfill133Store ∧
    (sortByCreated (doctorAppts backfill133Store 1)).map (·.doctorQueueNumber) =
      [some 1, some 3, some 3] ∧
    queueDrift backfill133Store 1 = false ∧
    storeValid backfill133Store := by
  exact ⟨rfl, by decide, by decide, by decide⟩

/-- Witness for C3 (amended) at a drifted concrete store: backfill
renumbers doctor 1's two appointments to 1, 2 in creation order and
resyncs the doctor counter to 2. -/
theorem backfill_densifies_witness :
    storeValid backfillDriftStore ∧
    queueDrift backfillDriftStore 1 = true ∧
    ensureDoctorQueueBackfill backfillDriftStore 1 = .ok backfillDriftResult ∧
    (0 < (doctorAppts backfillDriftStore 1).length →
      counterLookup backfillDriftResult.counters (doctorQueueKey 1) =
        some (doctorAppts backfillDriftStore 1).length) ∧
    queueNumAt backfillDriftResult 1 = some 1 ∧
    queueNumAt backfillDriftResult 2 = some 2 := by
  refine ⟨by decide, by decide, rfl, ?_, by decide, by decide⟩
  exact (@backfill_densifies backfillDriftStore 1 backfillDriftResult
    (by decide) (by decide) (by rfl)).2.1

/-- C9 (amended).  `renumberAllBookingNumbers` on success: when the walk
completes without a duplicate-key abort, it returns N = the number of
appointments, resyncs the global counter to N, and every appointment in
creation order carries a booking number of numeric value equal to its
1-based position — written as the digit string of the position unless
the prior number already parsed to that value, in which case the prior
string (e.g. a leading-zero form) is kept. -/
theorem renumber_all_success {s : Store} {n : Nat} {s' : Store}
    (hv : storeValid s) (h : renumberAllAppointments s = .ok (n, s')) :
    n = s.appts.length ∧
    counterLookup s'.counters ("bookingNumber") = some s.appts.length ∧
    List.Forall₂ (fun (a : Appt) (k : Nat) =>
        bookingNumAt s' a.id = some (toString k) ∨
        (bookingNumAt s' a.id = some a.bookingNumber ∧
         jsNumber a.bookingNumber = some k))
      (sortByCreated s.appts) (List.range' 1 s.appts.length) ∧
    List.Forall₂ (fun (a : Appt) (k : Nat) =>
        (bookingNumAt s' a.id).bind jsNumber = some k)
      (sortByCreated s.appts) (List.range' 1 s.appts.length) := by
  unfold renumberAllAppointments at h
  cases hloop : renumberBookingLoop (sortByCreated s.appts) 0 s with
  | error e => rw [hloop] at h; cases h
  | ok p =>
      rw [hloop] at h
      obtain ⟨seq, s₁⟩ := p
      injection h with h
      rw [Prod.mk.injEq] at h
      obtain ⟨hfst, rfl⟩ := h
      subst hfst
      have hlen : (sortByCreated s.appts).length = s.appts.length :=
        (sortByCreated_perm _).length_eq
      have hspec := renumberBookingLoop_spec (sortByCreated s.appts) 0 s (seq, s₁)
        (sorted_ids_nodup hv.1) (sorted_appts_pres hv) hloop
      have hseq : seq = s.appts.length := by
        have := hspec.1
        simp only [Nat.zero_add] at this
        rw [this, hlen]
      have hfor := hspec.2.2.2
      rw [hlen] at hfor
      refine ⟨hseq, ?_, hfor, ?_⟩
      · show counterLookup (counterSetSeq s₁.counters (("bookingNumber")) seq)
          (("bookingNumber")) = some s.appts.length
        rw [counterSetSeq_lookup, hseq]
      · refine List.Forall₂.imp ?_ hfor
        intro a k hr
        show (bookingNumAt (seq, s₁).2 a.id).bind jsNumber = some k
        rcases hr with hr | ⟨hr1, hr2⟩
        · rw [hr]
          show jsNumber (toString k) = some k
          exact jsNumber_toString k
        · rw [hr1]
          exact hr2

/-- Counterexample to C9 as stated: over `renumberCollideStore` (booking
numbers "2", "1" in creation order) the first overwrite collides with
the still-unrenumbered "1" on the unique booking-number index, so the
walk aborts with the duplicate-key error instead of assigning 1..N and
returning N. -/
theorem renumber_all_counterexample :
    renumberAllAppointments renumberCollideStore = .error .dupKey ∧
    storeValid renumberCollideStore := by
  exact ⟨rfl, by decide⟩

/-- Witness for C9 (amended) at a concrete store: the missing number
becomes "1", the leading-zero "002" (already of value 2) is kept, the
counter is resynced to 2, and the returned maximum is the appointment
count. -/
theorem renumber_all_success_witness :
    storeValid renumberOkStore ∧
    renumberAllAppointments renumberOkStore = .ok (2, renumberOkResult) ∧
    (2 = renumberOkStore.appts.length ∧
      counterLookup renumberOkResult.counters (("bookingNumber")) =
        some renumberOkStore.appts.length) ∧
    bookingNumAt renumberOkResult 1 = some ("1") ∧
    bookingNumAt renumberOkResult 2 = some ("002") := by
  refine ⟨by decide, rfl, ?_, by decide, by decide⟩
  have h := renumber_all_success (s := renumberOkStore) (by decide) rfl
  exact ⟨h.1, h.2.1⟩

/-- Collision-freedom, read off the store's pairwise consistency. -/
theorem valid_dupKey_false {s : Store} (hv : storeValid s) {x y : Appt}
    (hx : x ∈ s.appts) (hy : y ∈ s.appts) (hne : x ≠ y) :
    dupKey x y = false :=
  hv.2.forall (fun _ _ h => by rw [dupKey_comm]; exact h) hx hy hne

/-- A found document is a member carrying the looked-up id. -/
theorem findAppt_mem {s : Store} {i : Nat} {a : Appt}
    (h : findAppt s i = some a) : a ∈ s.appts ∧ a.id = i :=
  ⟨List.mem_of_find?_eq_some h, by simpa using List.find?_some h⟩

/-- A rewrite of a document that keeps its booking number and queue-index
key cannot introduce a collision. -/
theorem dupKey_false_of_rewrite {a' a b : Appt}
    (hbn : a'.bookingNumber = a.bookingNumber)
    (hqk : queueKeyed a' = queueKeyed a)
    (hdp : a'.doctorProfile = a.doctorProfile)
    (hdi : a'.appointmentDateIso = a.appointmentDateIso)
    (hqn : a'.doctorQueueNumber = a.doctorQueueNumber)
    (hab : dupKey a b = false) : dupKey a' b = false := by
  rw [dupKey_eq_false_iff] at hab ⊢
  obtain ⟨h1, h3⟩ := hab
  refine ⟨by rw [hbn]; exact h1, ?_⟩
  rintro ⟨hk1, hk2, hk3, hk4, hk5⟩
  exact h3 ⟨by rw [← hqk]; exact hk1, hk2, by rw [← hdp]; exact hk3,
    by rw [← hdi]; exact hk4, by rw [← hqn]; exact hk5⟩

/-- C5.  Cancellation frame effect: on a pending or confirmed
appointment owned by the caller, `cancelBooking` returns the document
with status `cancelled` and exactly the two QR cache fields cleared; the
stored document equals the original with only those three fields changed
(so the system booking number, the doctor queue number, and every other
field are untouched), every other document is untouched, and no counter
moves. -/
theorem cancel_frame (s : Store) (u i : Nat) (a : Appt)
    (hv : storeValid s) (hfind : findAppt s i = some a) (hu : a.user = u)
    (hst : a.status = Status.pending ∨ a.status = Status.confirmed) :
    (cancelBooking s u i).1 =
      .done { a with status := Status.cancelled, qrCode := (""), qrPayload := ("") } ∧
    findAppt (cancelBooking s u i).2 i =
      some { a with status := Status.cancelled, qrCode := (""), qrPayload := ("") } ∧
    (∀ j, j ≠ i → findAppt (cancelBooking s u i).2 j = findAppt s j) ∧
    (cancelBooking s u i).2.counters = s.counters ∧
    bookingNumAt (cancelBooking s u i).2 i = some a.bookingNumber ∧
    queueNumAt (cancelBooking s u i).2 i = a.doctorQueueNumber := by
  obtain ⟨hamem, hid⟩ := findAppt_mem hfind
  subst hid
  have hall1 : ∀ b ∈ s.appts,
      b.id ≠ ({ a with status := Status.cancelled } : Appt).id →
      dupKey { a with status := Status.cancelled } b = false := by
    intro b hb hne
    have hane : a ≠ b := by
      intro hdev
      exact hne (by rw [← hdev])
    exact dupKey_false_of_rewrite (a := a) rfl
      rfl rfl rfl rfl (valid_dupKey_false hv hamem hb hane)
  obtain ⟨S₁, hsave1⟩ : ∃ S₁, saveAppt s { a with status := Status.cancelled } = .ok S₁ :=
    ⟨_, saveAppt_ok_of hall1⟩
  have hv₁ : storeValid S₁ := save_preserves_valid hv hsave1
  have hfind1 : findAppt S₁ a.id = some { a with status := Status.cancelled } :=
    saveAppt_find_self hsave1 (c := a) hfind
  obtain ⟨ha₁mem, -⟩ := findAppt_mem hfind1
  have hall2 : ∀ b ∈ S₁.appts,
      b.id ≠ ({ ({ a with status := Status.cancelled } : Appt) with
                  qrCode := (""), qrPayload := ("") } : Appt).id →
      dupKey { ({ a with status := Status.cancelled } : Appt) with
                 qrCode := (""), qrPayload := ("") } b = false := by
    intro b hb hne
    have hane : ({ a with status := Status.cancelled } : Appt) ≠ b := by
      intro hdev
      exact hne (by rw [← hdev])
    exact dupKey_false_of_rewrite (a := { a with status := Status.cancelled }) rfl
      rfl rfl rfl rfl (valid_dupKey_false hv₁ ha₁mem hb hane)
  obtain ⟨S₂, hsave2⟩ : ∃ S₂, saveAppt S₁
      { ({ a with status := Status.cancelled } : Appt) with
          qrCode := (""), qrPayload := ("") } = .ok S₂ :=
    ⟨_, saveAppt_ok_of hall2⟩
  have hcond : (!(a.user = u) : Bool) = false := by simp [hu]
  have hcb : cancelBooking s u a.id =
      (.done { a with status := Status.cancelled, qrCode := (""), qrPayload := ("") }, S₂) := by
    unfold cancelBooking
    rw [hfind]
    show (if (!(a.user = u) : Bool) = true then _ else _) = _
    rw [hcond]
    simp only [Bool.false_eq_true, if_false]
    rw [hsave1]
    unfold releaseBookingNumber
    have hsave2' := hsave2
    dsimp only at hsave2' ⊢
    rw [hsave2']
  rw [hcb]
  have hfind2 : findAppt S₂ a.id =
      some { a with status := Status.cancelled, qrCode := (""), qrPayload := ("") } :=
    saveAppt_find_self hsave2 (c := { a with status := Status.cancelled }) hfind1
  refine ⟨rfl, hfind2, ?_, ?_, ?_, ?_⟩
  · intro j hj
    rw [saveAppt_find_ne hsave2 hj, saveAppt_find_ne hsave1 hj]
  · exact (saveAppt_ok_frame hsave2).1.trans (saveAppt_ok_frame hsave1).1
  · unfold bookingNumAt
    rw [hfind2]
    rfl
  · unfold queueNumAt
    rw [hfind2]
    rfl

/-- Witness for C5: cancelling the confirmed appointment of patient 20
in `cancelStore` keeps booking number "4" and queue number 2, clears the
QR cache and moves no counter. -/
theorem cancel_frame_witness :
    storeValid cancelStore ∧
    (cancelBooking cancelStore 20 1).1 =
      .done { baseAppt with
                id := 1, user := 20, doctorProfile := some 1,
                status := Status.cancelled, bookingNumber := ("4"),
                doctorQueueNumber := some 2, createdAt := 1 } ∧
    bookingNumAt (cancelBooking cancelStore 20 1).2 1 = some ("4") ∧
    queueNumAt (cancelBooking cancelStore 20 1).2 1 = some 2 ∧
    (cancelBooking cancelStore 20 1).2.counters = cancelStore.counters := by
  have h := cancel_frame cancelStore 20 1
    { baseAppt with
        id := 1, user := 20, doctorProfile := some 1,
        status := Status.confirmed, bookingNumber := ("4"),
        doctorQueueNumber := some 2,
        qrCode := ("qr-image"), qrPayload := ("qr-data"), createdAt := 1 }
    (by decide) (by decide) (by decide) (Or.inr (by decide))
  exact ⟨by decide, h.1, h.2.2.2.2.1, h.2.2.2.2.2, h.2.2.2.1⟩

/-- C6.  Accept re-validation: for a pending appointment in the doctor's
specialty with canonical date and time set and not assigned to another
doctor, the accept route re-checks the slot at transition time.  If
another pending-or-confirmed appointment of the accepting doctor
occupies the same canonical slot, the accept returns the slot conflict
and the store — hence the appointment, still pending — is unchanged;
otherwise (for an appointment not carrying a doctor-scoped queue number,
or already bound to this doctor) the appointment is confirmed and bound
to the accepting doctor. -/
theorem accept_revalidates (s : Store) (du apptId : Nat)
    (prof : DoctorProfileRec) (a : Appt)
    (hv : storeValid s)
    (hprof : findProfileByUser s du = some prof)
    (hfind : s.appts.find? (fun b =>
        b.id = apptId && b.status = Status.pending &&
        b.specialtySlug = prof.specialtySlug) = some a)
    (hdp : a.doctorProfile = none ∨ a.doctorProfile = some prof.id)
    (hslot : hasCanonicalSlot a = true) :
    (acceptConflict s prof.id a = true →
      acceptPendingBooking s du apptId = (.slotConflict, s) ∧
      a.status = Status.pending) ∧
    (acceptConflict s prof.id a = false →
      (a.doctorProfile = some prof.id ∨ a.doctorQueueNumber = none) →
      (∃ x, (acceptPendingBooking s du apptId).1 = .accepted x) ∧
      (findAppt (acceptPendingBooking s du apptId).2 apptId).map (·.status) =
        some Status.confirmed ∧
      (findAppt (acceptPendingBooking s du apptId).2 apptId).map (·.doctorProfile) =
        some (some prof.id)) := by
  have hpred := List.find?_some hfind
  simp only [Bool.and_eq_true, decide_eq_true_eq] at hpred
  obtain ⟨⟨haid, hap⟩, hslug⟩ := hpred
  subst haid
  have hamem : a ∈ s.appts := List.mem_of_find?_eq_some hfind
  have hafind : findAppt s a.id = some a := find?_id_of_mem hv.1 hamem
  have hguard : (match a.doctorProfile with
      | some p => !(p = prof.id)
      | none => false) = false := by
    rcases hdp with hdp | hdp <;> rw [hdp] <;> simp
  constructor
  · intro hconf
    have hcond : (hasCanonicalSlot a && acceptConflict s prof.id a) = true := by
      rw [hslot, hconf]
      rfl
    constructor
    · unfold acceptPendingBooking
      rw [hprof]
      dsimp only
      rw [hfind]
      dsimp only
      rw [hguard]
      simp only [Bool.false_eq_true, if_false]
      rw [hcond]
      simp
    · exact hap
  · intro hconf hq
    have hcond : (hasCanonicalSlot a && acceptConflict s prof.id a) = false := by
      rw [hslot, hconf]
      rfl
    have hall : ∀ b ∈ s.appts,
        b.id ≠ ({ a with status := Status.confirmed, doctorProfile := some prof.id } : Appt).id →
        dupKey { a with status := Status.confirmed, doctorProfile := some prof.id } b = false := by
      intro b hb hne
      have hne' : b.id ≠ a.id := hne
      have hane : a ≠ b := fun hdev => hne' (by rw [← hdev])
      have hab := valid_dupKey_false hv hamem hb hane
      rw [dupKey_eq_false_iff] at hab
      obtain ⟨h1, h3⟩ := hab
      rw [dupKey_eq_false_iff]
      refine ⟨h1, ?_⟩
      · rcases hq with hq | hq
        · rintro ⟨hk1, hk2, hk3, hk4, hk5⟩
          refine h3 ⟨hk1, hk2, ?_, hk4, hk5⟩
          have h' : ({ a with status := Status.confirmed, doctorProfile := some prof.id } : Appt).doctorProfile = b.doctorProfile := hk3
          rw [hq]
          rw [← h']
        · rintro ⟨hk1, -⟩
          unfold queueKeyed at hk1
          have h' : ({ a with status := Status.confirmed, doctorProfile := some prof.id } : Appt).doctorQueueNumber = none := hq
          rw [h'] at hk1
          simp at hk1
    obtain ⟨S₁, hsave⟩ : ∃ S₁, saveAppt s { a with status := Status.confirmed, doctorProfile := some prof.id } = .ok S₁ :=
      ⟨_, saveAppt_ok_of hall⟩
    have hacc : acceptPendingBooking s du a.id =
        (.accepted (ensureBookingNumber S₁ { a with status := Status.confirmed, doctorProfile := some prof.id }).1,
         (ensureBookingNumber S₁ { a with status := Status.confirmed, doctorProfile := some prof.id }).2) := by
      unfold acceptPendingBooking
      rw [hprof]
      dsimp only
      rw [hfind]
      dsimp only
      rw [hguard]
      simp only [Bool.false_eq_true, if_false]
      rw [hcond]
      simp only [Bool.false_eq_true, if_false]
      rw [hsave]
    have hfind1 : findAppt S₁ a.id = some { a with status := Status.confirmed, doctorProfile := some prof.id } :=
      saveAppt_find_self hsave (c := a) hafind
    have hensure := ensureBookingNumber_find
      (s := S₁) (a := { a with status := Status.confirmed, doctorProfile := some prof.id })
      (c := { a with status := Status.confirmed, doctorProfile := some prof.id }) hfind1
    have hproj : ∀ z, (findAppt (ensureBookingNumber S₁ { a with status := Status.confirmed, doctorProfile := some prof.id }).2 a.id) = some z →
        z.status = Status.confirmed ∧ z.doctorProfile = some prof.id := by
      intro z hz
      rcases hensure.2 with hcase | hcase
      · rw [hcase, hfind1] at hz
        injection hz with hz
        subst hz
        exact ⟨rfl, rfl⟩
      · rw [hcase] at hz
        injection hz with hz
        subst hz
        rw [ensureBookingNumber_fst]
        by_cases hnum : isNumericBooking ({ a with status := Status.confirmed, doctorProfile := some prof.id } : Appt).bookingNumber = true
        · rw [if_pos hnum]
          exact ⟨rfl, rfl⟩
        · rw [if_neg hnum]
          exact ⟨rfl, rfl⟩
    rw [hacc]
    have hfinal : ∃ z, findAppt (ensureBookingNumber S₁ { a with status := Status.confirmed, doctorProfile := some prof.id }).2 a.id = some z := by
      rcases hensure.2 with hcase | hcase
      · exact ⟨_, by rw [hcase, hfind1]⟩
      · exact ⟨_, hcase⟩
    obtain ⟨z, hz⟩ := hfinal
    refine ⟨⟨_, rfl⟩, ?_, ?_⟩
    · show (findAppt (ensureBookingNumber S₁ _).2 a.id).map (·.status) = _
      rw [hz, Option.map_some']
      rw [(hproj z hz).1]
    · show (findAppt (ensureBookingNumber S₁ _).2 a.id).map (·.doctorProfile) = _
      rw [hz, Option.map_some']
      rw [(hproj z hz).2]

/-- Witness for C6, conflict side: in `acceptStore` doctor 1 already
holds the 09:00 slot on 2025-06-01, so accepting the pending
specialty-queue appointment fails with the slot conflict and the store
is unchanged. -/
theorem accept_revalidates_witness :
    storeValid acceptStore ∧
    acceptConflict acceptStore 1 { baseAppt with id := 1, user := 20, doctorProfile := none, status := Status.pending, bookingNumber := ("1"), createdAt := 1 } = true ∧
    acceptPendingBooking acceptStore 10 1 = (.slotConflict, acceptStore) := by
  refine ⟨by decide, by decide, ?_⟩
  have h := (accept_revalidates acceptStore 10 1 baseProfile
    { baseAppt with id := 1, user := 20, doctorProfile := none, status := Status.pending, bookingNumber := ("1"), createdAt := 1 }
    (by decide) (by decide) (by decide) (Or.inl (by decide)) (by decide)).1 (by decide)
  exact h.1

/-- The insert tail of `createCore`, abstracted over the prepared store
and document: success hands over to `ensureBookingNumber`, a duplicate
key becomes the already-booked conflict. -/
theorem createCore_tail_error (s₀ : Store) (a : Appt)
    (h : insertAppt s₀ a = .error .dupKey) :
    ((match insertAppt s₀ a with
      | .ok s₃ => (BookingOutcome.created a, (ensureBookingNumber s₃ a).2)
      | .error _ => (BookingOutcome.conflictDup, s₀)) : BookingOutcome × Store) =
    (BookingOutcome.conflictDup, s₀) := by
  rw [h]

/-- The insert tail of `createCore` preserves index consistency. -/
theorem createCore_tail_valid (s₀ : Store) (a : Appt) (hv : storeValid s₀) :
    storeValid ((match insertAppt s₀ a with
      | .ok s₃ => (BookingOutcome.created a, (ensureBookingNumber s₃ a).2)
      | .error _ => (BookingOutcome.conflictDup, s₀)) : BookingOutcome × Store).2 := by
  cases hins : insertAppt s₀ a with
  | ok s₃ => exact ensure_preserves_valid a (insert_preserves_valid hv hins)
  | error e => exact hv

/-- `createCore` preserves index consistency. -/
theorem createCore_preserves_valid (s : Store) (r : BookingReq) (dp : Option Nat)
    (dIso tVal : String) (qn : Option Nat) (hv : storeValid s) :
    storeValid (createCore s r dp dIso tVal qn).2 := by
  unfold createCore
  dsimp only
  exact createCore_tail_valid _ _ hv

/-- `createBooking` preserves index consistency on every path. -/
theorem createBooking_preserves_valid (s : Store) (r : BookingReq)
    (hv : storeValid s) : storeValid (createBooking s r).2 := by
  unfold createBooking
  dsimp only
  split
  · exact hv
  · split
    · split
      · exact hv
      · split
        · exact hv
        · split
          · exact hv
          · split
            · exact hv
            · split
              · exact hv
              · split
                · exact hv
                · exact createCore_preserves_valid _ _ _ _ _ _ hv
    · split
      · exact hv
      · exact createCore_preserves_valid _ _ _ _ _ _ hv

/-- C7 (amended).  Duplicate daily-booking rejection: when patient P
already holds a *pending or confirmed* appointment with doctor D on
canonical date T, `createBooking(P, D, T, H)` fails with a 409 — the
duplicate-daily rejection, or the slot pre-check conflict when P's
existing appointment occupies the very time H requested — and creates no
appointment.  (A completed appointment, although non-cancelled, does not
block re-booking: see the counterexample.) -/
theorem duplicate_daily_blocks_active (s : Store) (r : BookingReq)
    (did : Nat) (prof : DoctorProfileRec)
    (hreq : requiredPresent r = true)
    (hdid : r.doctorId = some did)
    (hdoc : findDoctor s did = some prof)
    (hblock : blockForbids s prof.user r.user = false)
    (hsub : subscriptionBlocked s prof = false)
    (hdi : ¬(normDateIso r = ("")))
    (htv : ¬(normTimeValue r = ("")))
    (hdup : userHasAppointment s r.user (some prof.id) (normDateIso r) = true) :
    (createBooking s r).2 = s ∧
    ((createBooking s r).1 = .conflictPre ∨ (createBooking s r).1 = .duplicateDaily) ∧
    (slotTaken s prof.id (normDateIso r) (normTimeValue r) = false →
      (createBooking s r).1 = .duplicateDaily) := by
  have hmain : ∀ b : Bool, slotTaken s prof.id (normDateIso r) (normTimeValue r) = b →
      createBooking s r =
        (if b then (BookingOutcome.conflictPre, s) else (BookingOutcome.duplicateDaily, s)) := by
    intro b hb
    unfold createBooking
    rw [hreq]
    simp only [Bool.not_true, Bool.false_eq_true, if_false]
    rw [hdid]
    dsimp only
    rw [hdoc]
    dsimp only
    rw [hblock]
    simp only [Bool.false_eq_true, if_false]
    rw [hsub]
    simp only [Bool.false_eq_true, if_false]
    rw [show (normDateIso r = ("") || normTimeValue r = ("") : Bool) = false from by
      simp [hdi, htv]]
    simp only [Bool.false_eq_true, if_false]
    rw [hb]
    cases b with
    | true => simp
    | false =>
        simp only [Bool.false_eq_true, if_false]
        rw [hdup]
        simp
  cases hb : slotTaken s prof.id (normDateIso r) (normTimeValue r) with
  | true =>
      rw [hmain true hb]
      exact ⟨rfl, Or.inl rfl, fun hcontra => absurd hcontra (by decide)⟩
  | false =>
      rw [hmain false hb]
      exact ⟨rfl, Or.inr rfl, fun _ => rfl⟩

/-- Counterexample to C7 as stated: in `dupDailyStore` patient 20 holds
a completed — hence non-cancelled — appointment with doctor 1 on
2025-06-01, yet a new booking by patient 20 with doctor 1 on the same
date succeeds (status 201, one more appointment) instead of failing
with the duplicate-daily rejection. -/
theorem duplicate_daily_counterexample :
    dupDailyStore.appts.any (fun a =>
      a.user = 20 && a.doctorProfile = some 1 &&
      a.appointmentDateIso = some ("2025-06-01") &&
      !(a.status = Status.cancelled)) = true ∧
    (createBooking dupDailyStore dupDailyReq).1.isCreated = true ∧
    ¬((createBooking dupDailyStore dupDailyReq).1 = .duplicateDaily) ∧
    (createBooking dupDailyStore dupDailyReq).2.appts.length =
      dupDailyStore.appts.length + 1 := by
  refine ⟨by decide, by decide, by decide, by decide⟩

/-- Witness for C7 (amended): patient 20 holds a *confirmed*
appointment with doctor 1 on 2025-06-01 at 09:00 and re-books at 10:00;
the request is rejected as a duplicate daily booking and the store is
unchanged. -/
theorem duplicate_daily_blocks_active_witness :
    userHasAppointment dupDailyActiveStore 20 (some 1) ("2025-06-01") = true ∧
    (createBooking dupDailyActiveStore dupDailyReq).1 = .duplicateDaily ∧
    (createBooking dupDailyActiveStore dupDailyReq).2 = dupDailyActiveStore := by
  have h := duplicate_daily_blocks_active dupDailyActiveStore dupDailyReq 1 baseProfile
    (by decide) (by decide) (by decide) (by decide) (by decide)
    (by decide) (by decide) (by decide)
  exact ⟨by decide, h.2.2 (by decide), h.1⟩

/-- C1 (code bug).  The claimed slot exclusivity is NOT storage-enforced:
the slot index declared at `models/Appointment.js` lines 141-152 puts
`$ne: ""` inside its `partialFilterExpression`, which MongoDB rejects, so
the index never builds (the repository's `scripts/fix-appointment-index.js`
removes `$ne` from the sibling queue index for this very reason and leaves
the slot index broken).  Hence in the race where a second booking for the
very slot already held by a pending-or-confirmed appointment reaches its
create-and-insert phase — its pre-check having read the earlier snapshot —
the insert SUCCEEDS: no duplicate-key error fires (the `err.code === 11000`
handler is dead for slot conflicts), the outcome is `created`, the new
document is appended, and the store ends with two active appointments in
the identical (doctor, canonical date, canonical time) slot, violating the
claimed invariant.  The freshness hypotheses state what the real system
provides: a fresh `_id` and counter-fresh booking and queue numbers. -/
theorem slot_double_booking_bug (s : Store) (r : BookingReq) (d : Nat)
    (dIso tVal : String) (qn : Option Nat) (a₁ : Appt)
    (hmem : a₁ ∈ s.appts)
    (hdp : a₁.doctorProfile = some d) (hdi : a₁.appointmentDateIso = some dIso)
    (htv : a₁.appointmentTimeValue = some tVal)
    (hst : a₁.status = Status.pending ∨ a₁.status = Status.confirmed)
    (hid : ∀ b ∈ s.appts, ¬(b.id = s.nextId))
    (hbn : ∀ b ∈ s.appts, ¬(b.bookingNumber = (getNextBookingNumber s).1))
    (hqk : ∀ b ∈ s.appts, ¬(b.doctorProfile = some d ∧
      b.appointmentDateIso = some dIso ∧ b.doctorQueueNumber = qn)) :
    slotTaken s d dIso tVal = true ∧
    (createCore s r (some d) dIso tVal qn).1 =
      .created (mkNewAppt (getNextBookingNumber s).2 r (some d) dIso tVal
        (getNextBookingNumber s).1 qn) ∧
    (createCore s r (some d) dIso tVal qn).2.appts =
      s.appts ++ [mkNewAppt (getNextBookingNumber s).2 r (some d) dIso tVal
        (getNextBookingNumber s).1 qn] ∧
    slotCount (createCore s r (some d) dIso tVal qn).2 d dIso tVal =
      slotCount s d dIso tVal + 1 ∧
    2 ≤ slotCount (createCore s r (some d) dIso tVal qn).2 d dIso tVal := by
  have htaken : slotTaken s d dIso tVal = true := by
    unfold slotTaken
    refine List.any_eq_true.mpr ⟨a₁, hmem, ?_⟩
    rcases hst with h | h <;> simp [hdp, hdi, htv, h]
  have hfree : ∀ b ∈ s.appts,
      b.id ≠ (mkNewAppt (getNextBookingNumber s).2 r (some d) dIso tVal
        (getNextBookingNumber s).1 qn).id ∧
      dupKey (mkNewAppt (getNextBookingNumber s).2 r (some d) dIso tVal
        (getNextBookingNumber s).1 qn) b = false := by
    intro b hb
    constructor
    · intro hcontra
      exact hid b hb hcontra
    · rw [dupKey_eq_false_iff]
      constructor
      · intro hcontra
        exact hbn b hb hcontra.symm
      · rintro ⟨-, -, hk3, hk4, hk5⟩
        exact hqk b hb ⟨hk3.symm, hk4.symm, hk5.symm⟩
  have hins := insertAppt_ok_of
    (s := { (getNextBookingNumber s).2 with nextId := (getNextBookingNumber s).2.nextId + 1 })
    (a := mkNewAppt (getNextBookingNumber s).2 r (some d) dIso tVal
      (getNextBookingNumber s).1 qn)
    (fun b hb => hfree b hb)
  have hfst : (createCore s r (some d) dIso tVal qn).1 =
      .created (mkNewAppt (getNextBookingNumber s).2 r (some d) dIso tVal
        (getNextBookingNumber s).1 qn) := by
    unfold createCore
    dsimp only
    rw [hins]
  have happts : (createCore s r (some d) dIso tVal qn).2.appts =
      s.appts ++ [mkNewAppt (getNextBookingNumber s).2 r (some d) dIso tVal
        (getNextBookingNumber s).1 qn] := by
    unfold createCore
    dsimp only
    rw [hins]
    dsimp only
    refine (ensureBookingNumber_appts_of_numeric _ _ ?_ ?_ ?_).trans ?_
    · show isNumericBooking (getNextBookingNumber s).1 = true
      exact isNumericBooking_toString _
    · intro b hb hne
      rcases List.mem_append.mp hb with hb' | hb'
      · exact (hfree b hb').2
      · rcases List.mem_singleton.mp hb' with rfl
        exact absurd rfl hne
    · intro b hb hbe
      rcases List.mem_append.mp hb with hb' | hb'
      · exact absurd hbe (hfree b hb').1
      · exact List.mem_singleton.mp hb'
    · rfl
  have hone : 0 < slotCount s d dIso tVal := by
    unfold slotCount
    refine List.countP_pos_iff.mpr ⟨a₁, hmem, ?_⟩
    rcases hst with h | h <;> simp [hdp, hdi, htv, h]
  have hcnt : slotCount (createCore s r (some d) dIso tVal qn).2 d dIso tVal =
      slotCount s d dIso tVal + 1 := by
    unfold slotCount
    rw [happts, List.countP_append]
    simp [List.countP_cons, mkNewAppt]
  exact ⟨htaken, hfst, happts, hcnt, by rw [hcnt]; omega⟩

/-- Witness for C1 at the concrete race: `raceStore` already holds the
pending 09:00 appointment of doctor 1 on 2025-06-01 (`racePayload`), yet
the second racer's create-and-insert phase succeeds and the store ends
with the slot double-booked. -/
theorem slot_double_booking_bug_witness :
    slotTaken raceStore 1 ("2025-06-01") ("09:00") = true ∧
    BookingOutcome.isCreated
      (createCore raceStore raceReq (some 1) ("2025-06-01") ("09:00")
        (some 2)).1 = true ∧
    slotCount (createCore raceStore raceReq (some 1) ("2025-06-01") ("09:00")
      (some 2)).2 1 ("2025-06-01") ("09:00") = 2 := by
  have h := slot_double_booking_bug raceStore raceReq 1 ("2025-06-01") ("09:00")
    (some 2) racePayload (by decide) (by decide) (by decide) (by decide)
    (Or.inl (by decide)) (by decide) (by decide) (by decide)
  refine ⟨h.1, ?_, ?_⟩
  · rw [h.2.1]
    rfl
  · rw [h.2.2.2.1]
    decide

/-- C10.  Storage-level queue-number uniqueness: in an index-consistent
store no two distinct appointments with the doctor profile set share the
same (doctorProfile, appointmentDateIso, doctorQueueNumber) with the
date a string and the queue number a number; any insert or update that
would create such a duplicate fails with the duplicate-key error; and
successful inserts and saves preserve index consistency, so the
constraint holds in every reachable store state. -/
theorem queue_number_unique_index (s : Store) (hv : storeValid s) :
    (∀ (a b : Appt) (d q : Nat) (ti : String),
      a ∈ s.appts → b ∈ s.appts → ¬(a = b) →
      a.doctorProfile = some d → b.doctorProfile = some d →
      a.appointmentDateIso = some ti → b.appointmentDateIso = some ti →
      a.doctorQueueNumber = some q → b.doctorQueueNumber = some q → False) ∧
    (∀ a b, b ∈ s.appts → ¬(b.id = a.id) →
      queueKeyed a = true → queueKeyed b = true → sameQueueKey a b = true →
      insertAppt s a = .error .dupKey ∧ saveAppt s a = .error .dupKey) ∧
    (∀ a s', insertAppt s a = .ok s' → storeValid s') ∧
    (∀ a s', saveAppt s a = .ok s' → storeValid s') := by
  refine ⟨?_, ?_, ?_, ?_⟩
  · intro a b d q ti ha hb hne hdp₁ hdp₂ hdi₁ hdi₂ hqn₁ hqn₂
    have hab := valid_dupKey_false hv ha hb hne
    have : dupKey a b = true := by
      refine (dupKey_iff a b).mpr (Or.inr ?_)
      refine ⟨?_, ?_, ?_, ?_, ?_⟩
      · unfold queueKeyed
        rw [hdi₁, hqn₁]
        rfl
      · unfold queueKeyed
        rw [hdi₂, hqn₂]
        rfl
      · rw [hdp₁, hdp₂]
      · rw [hdi₁, hdi₂]
      · rw [hqn₁, hqn₂]
    rw [hab] at this
    cases this
  · intro a b hb hne hka hkb hsame
    have hd : dupKey a b = true := by
      refine (dupKey_iff a b).mpr (Or.inr ⟨hka, hkb, ?_, ?_, ?_⟩)
      all_goals
        simp only [sameQueueKey, Bool.and_eq_true, decide_eq_true_eq] at hsame
      · exact hsame.1.1
      · exact hsame.1.2
      · exact hsame.2
    exact ⟨insertAppt_error_of hb (Or.inr hd), saveAppt_error_of hb hne hd⟩
  · intro a s' hins
    exact insert_preserves_valid hv hins
  · intro a s' hsave
    exact save_preserves_valid hv hsave

/-- Witness for C10: `queueIdxPayload` collides with the stored
appointment of `queueIdxStore` only on (doctor 1, 2025-06-01, queue 1);
both the insert and the save are rejected with the duplicate-key
error. -/
theorem queue_number_unique_index_witness :
    storeValid queueIdxStore ∧
    sameQueueKey queueIdxPayload
      { baseAppt with id := 1, user := 20, doctorProfile := some 1, status := Status.confirmed, bookingNumber := ("1"), doctorQueueNumber := some 1, createdAt := 1 } = true ∧
    insertAppt queueIdxStore queueIdxPayload = .error .dupKey ∧
    saveAppt queueIdxStore queueIdxPayload = .error .dupKey := by
  have h := (queue_number_unique_index queueIdxStore (by decide)).2.1
    queueIdxPayload
    { baseAppt with id := 1, user := 20, doctorProfile := some 1, status := Status.confirmed, bookingNumber := ("1"), doctorQueueNumber := some 1, createdAt := 1 }
    (by decide) (by decide) (by decide) (by decide) (by decide)
  exact ⟨by decide, by decide, h.1, h.2⟩

end Midecae
